import Mathlib

/-!
Verification of the HTTP request/response mediation layer of the bonsai-cli
v2 API client (`bonsai_cli/api.py`).

The development shallowly embeds the mediation layer: the response
normalizer `_dict`, the error classifier `_handle_and_raise`, the request
dispatcher `_try_http_request` / `_http_request` with its one-shot
authentication fallback, the URL-path template formatting used by the
resource methods, and the string-interpolated JSON "purpose" construction
of `create_sim_collection` / `patch_sim_session` (together with a model of
Python `json.loads` used to analyse it).

Python dictionaries are modelled as association lists with unique keys,
JSON-decodable values as an inductive `Value` type, the transport as an
oracle function from requests to outcomes, and the `uuid4` supply as a
stream of strings indexed by a draw counter.
-/

namespace BonsaiCli

/-- JSON-like values, extended with the two non-JSON Python values that the
mediation layer stores into its result dictionaries: a `requests` elapsed
`timedelta` (`duration`, in microseconds) and a wrapped transport
exception (`exc`, carrying the exception message). -/
inductive Value where
  | jstr : String → Value
  | jnum : Int → Value
  | jbool : Bool → Value
  | jnull : Value
  | jarr : List Value → Value
  | jobj : List (String × Value) → Value
  | duration : Nat → Value
  | exc : String → Value

/-- Lookup in a Python dict modelled as an association list
(`d[k]` / `d.get(k)`). -/
def getKey? (d : List (String × α)) (k : String) : Option α :=
  (d.find? (fun p => p.1 == k)).map (fun p => p.2)

/-- Assignment `d[k] = v` on a Python dict modelled as an association list:
replace the entry if the key is present, append otherwise. -/
def setKey (d : List (String × α)) (k : String) (v : α) : List (String × α) :=
  if d.any (fun p => p.1 == k) then
    d.map (fun p => if p.1 == k then (k, v) else p)
  else d ++ [(k, v)]

/-- `dict.update` with another dict (`d.update(e)`), entry by entry. -/
def updAll (d e : List (String × α)) : List (String × α) :=
  e.foldl (fun acc p => setKey acc p.1 p.2) d

/-- Characterwise lowercasing (used for case-insensitive header names). -/
def lowerChars (s : String) : List Char := s.data.map Char.toLower

/-- Lookup in a `requests` response-header mapping, which is
case-insensitive (`CaseInsensitiveDict`). -/
def headerGet (hs : List (String × String)) (k : String) : Option String :=
  (hs.find? (fun p => lowerChars p.1 == lowerChars k)).map (fun p => p.2)

/-- A transport-level HTTP response as the mediation layer consumes it:
status code, reason phrase, body text, the outcome of `response.json()`
(`none` models a `ValueError` from the JSON parser), elapsed time and
response headers. -/
structure Response where
  status_code : Int
  reason : String
  text : String
  json : Option Value
  elapsed : Nat
  headers : List (String × String)

/-- `response.ok` of `requests`: true iff the status code is below 400.
`bool(response)` delegates to the same test. -/
def respOk (r : Response) : Bool := r.status_code < 400

mutual

/-- Python `repr` of a `Value`, as it appears inside `str(dict)`. -/
def pyReprV : Value → String
  | Value.jstr s => "\x27" ++ s ++ "\x27"
  | Value.jnum n => toString n
  | Value.jbool b => if b then "True" else "False"
  | Value.jnull => "None"
  | Value.jarr xs => "[" ++ pyReprArr xs ++ "]"
  | Value.jobj fs => "\x7b" ++ pyReprFields fs ++ "\x7d"
  | Value.duration n => "datetime.timedelta(microseconds=" ++ toString n ++ ")"
  | Value.exc m => "HTTPError(\x27" ++ m ++ "\x27)"

/-- Comma-separated `repr` of list elements. -/
def pyReprArr : List Value → String
  | [] => ""
  | [v] => pyReprV v
  | v :: vs => pyReprV v ++ ", " ++ pyReprArr vs

/-- Comma-separated `repr` of dict entries. -/
def pyReprFields : List (String × Value) → String
  | [] => ""
  | [(k, v)] => "\x27" ++ k ++ "\x27: " ++ pyReprV v
  | (k, v) :: fs => "\x27" ++ k ++ "\x27: " ++ pyReprV v ++ ", " ++ pyReprFields fs

end

/-- Python `str` of a `Value` (differs from `repr` only on strings). -/
def pyStrV : Value → String
  | Value.jstr s => s
  | v => pyReprV v

/-- Python `str` of a dict (same as `repr`). -/
def pyReprDict (d : List (String × Value)) : String :=
  "\x7b" ++ pyReprFields d ++ "\x7d"

/-- Field access `v[k]` on a parsed JSON value; fails (raises, in Python)
when the value is not an object or the key is missing. -/
def jGet (v : Value) (k : String) : Option Value :=
  match v with
  | Value.jobj fs => getKey? fs k
  | _ => none

/-- The status mapping built by `_dict` (the response normalizer): the body
mapping with `status`/`statusCode`/`statusMessage`/`elapsed` assigned in
order, and `timeTaken` assigned from the `x-ms-response-time` response
header; a missing header raises `KeyError`, which the surrounding
`try/except KeyError` swallows after the first four assignments already
happened. -/
def statusOverlay (r : Response) (d : List (String × Value)) : List (String × Value) :=
  let d := setKey d "status" (Value.jstr (if respOk r then "Succeeded" else "Failed"))
  let d := setKey d "statusCode" (Value.jnum r.status_code)
  let d := setKey d "statusMessage" (Value.jstr "")
  let d := setKey d "elapsed" (Value.duration r.elapsed)
  match headerGet r.headers "x-ms-response-time" with
  | some t => setKey d "timeTaken" (Value.jstr t)
  | none => d

/-- Python `str.strip()`: drop leading and trailing whitespace. -/
def pyStrip (s : String) : String :=
  String.mk (((s.data.dropWhile Char.isWhitespace).reverse.dropWhile
    Char.isWhitespace).reverse)

/-- Model of `_dict(response, request_id)`: translate a response into a
result dictionary.  A truthy response (`response.ok`) with non-empty,
non-whitespace body text contributes its parsed JSON body — directly if it
is an object, wrapped under `value` otherwise; a JSON parse failure
(`ValueError`) is swallowed, leaving the empty dict.  The status fields
are then overlaid. -/
def dictFn (r : Response) (_request_id : String) : List (String × Value) :=
  let response_dict : List (String × Value) :=
    if respOk r = true ∧ r.text ≠ "" ∧ pyStrip r.text ≠ "" then
      match r.json with
      | some v =>
        match v with
        | Value.jobj fs => fs
        | _ => [("value", v)]
      | none => []
    else []
  statusOverlay r response_dict

/-- The `errorDump` extraction of `_handle_and_raise`: the parsed JSON body,
or the fixed marker string if parsing fails. -/
def errorDumpOf (r : Response) : Value :=
  match r.json with
  | some v => v
  | none => Value.jstr "Unknown server error occurred"

/-- The `error_code` extraction of `_handle_and_raise`: formatted from
`response.json()["error"]["code"]`, empty string if any step fails. -/
def errorCodeOf (r : Response) : String :=
  match (r.json.bind (fun v => jGet v "error")).bind (fun v => jGet v "code") with
  | some c => "Request failed with error code \"" ++ pyStrV c ++ "\""
  | none => ""

/-- The `error_message` extraction of `_handle_and_raise`: the formatted
`error.message` (or the generic fallback), then the request id, then the
`SpanID` header if present — the `KeyError` of a missing `SpanID` is
caught after the request id was already appended. -/
def errorMessageOf (r : Response) (request_id : String) : String :=
  let base :=
    match (r.json.bind (fun v => jGet v "error")).bind (fun v => jGet v "message") with
    | some m => "Error message: " ++ pyStrV m
    | none => "Request failed."
  let withReq := base ++ " Request ID: " ++ request_id
  match headerGet r.headers "SpanID" with
  | some s => withReq ++ " Span ID: " ++ s
  | none => withReq

/-- Model of `_handle_and_raise(response, e, request_id)` up to the
`raise`: the error dictionary wrapped in the `BrainServerError`.  The final
assignment block runs in one `try/except KeyError`; only the last
assignment (`timeTaken`, from the `x-ms-response-time` header) can raise,
so all earlier fields are always populated. -/
def handleAndRaise (r : Response) (e : String) (request_id : String) :
    List (String × Value) :=
  let d : List (String × Value) :=
    [("errorDump", errorDumpOf r),
     ("status", Value.jstr "Failed"),
     ("statusCode", Value.jnum r.status_code),
     ("elapsed", Value.duration r.elapsed),
     ("exception", Value.exc e),
     ("errorCode", Value.jstr (errorCodeOf r)),
     ("errorMessage", Value.jstr (errorMessageOf r request_id))]
  match headerGet r.headers "x-ms-response-time" with
  | some t => d ++ [("timeTaken", Value.jstr t)]
  | none => d

/-- The payload of a raised `BrainServerError`: `_handle_and_raise` raises
it with the error dictionary, the connection-error and timeout branches
raise it with a plain message string. -/
inductive BrainError where
  | fromDict : List (String × Value) → BrainError
  | fromStr : String → BrainError

/-- `str(err)` for a `BrainServerError` `err`: `BaseException.__new__`
stores the single constructor argument in `args`, so `str` renders it —
the message itself, or the Python `str` of the error dictionary. -/
def brainErrorText : BrainError → String
  | BrainError.fromDict d => pyReprDict d
  | BrainError.fromStr s => s

/-- Errors escaping `_try_http_request`: the `UsageError` of an
unsupported verb, or a `BrainServerError`. -/
inductive DispatchError where
  | usage : String → DispatchError
  | brain : BrainError → DispatchError

/-- Candidate-prefix test on character lists. -/
def hasPre : List Char → List Char → Bool
  | [], _ => true
  | _ :: _, [] => false
  | c :: cs, d :: ds => c = d && hasPre cs ds

/-- Substring scan on character lists. -/
def hasSub (needle : List Char) (hay : List Char) : Bool :=
  hasPre needle hay ||
    match hay with
    | [] => false
    | _ :: ds => hasSub needle ds

/-- Python `needle in hay` on strings. -/
def strContains (hay needle : String) : Bool := hasSub needle.data hay.data

/-- The legacy-auth sentinel test of `_http_request`:
`'BonsaiAuthDeprecated' in str(err) or 'InvalidUseOfAccessKey' in str(err)`. -/
def hasSentinelText (s : String) : Bool :=
  strContains s "BonsaiAuthDeprecated" || strContains s "InvalidUseOfAccessKey"

/-- The per-client state of a `BonsaiAPI` instance: the construction
parameters plus the computed `User-Agent` string. `access_key` is the
single mutable credential slot. -/
structure ClientState where
  access_key : String
  workspace_id : String
  tenant_id : Option String
  api_url : String
  gateway_url : String
  user_info : String

/-- `_get_headers`: the base request headers. -/
def getHeaders (st : ClientState) : List (String × String) :=
  [("Authorization", st.access_key), ("User-Agent", st.user_info)]

/-- The redaction applied to the `Authorization` value before the header
dump is logged: a truthy (non-empty) token is replaced by `***` followed
by its last 10 characters (`token[-10:]`). -/
def maskAuth (token : String) : String :=
  if token ≠ "" then "***" ++ String.mk (token.data.drop (token.data.length - 10))
  else token

/-- The scrubbed copy of the headers that `_try_http_request` logs. -/
def scrubHeaders (hs : List (String × String)) : List (String × String) :=
  match getKey? hs "Authorization" with
  | some token =>
    if token ≠ "" then setKey hs "Authorization" (maskAuth token) else hs
  | none => hs

/-- The body handed to the transport: none (GET/DELETE), JSON-encoded
(`json=data`), or opaque (`data=data`, the RAW variants). -/
inductive Body where
  | empty : Body
  | jsonBody : Option (List (String × Value)) → Body
  | rawBody : Option (List (String × Value)) → Body

/-- One outgoing HTTP request exactly as `_try_http_request` hands it to
the `requests` session. -/
structure Request where
  method : String
  url : String
  body : Body
  headers : List (String × String)
  allow_redirects : Bool
  timeout : Nat

/-- `BonsaiAPI.TIMEOUT`. -/
def TIMEOUT : Nat := 300

/-- The verb dispatch of `_try_http_request`: which transport call is made
for each verb, with redirect-following left at the transport default
(enabled) for GET and disabled for every other supported verb; an
unsupported verb yields no request (`UsageError`). -/
def buildRequest (method url : String) (data : Option (List (String × Value)))
    (headers_out : List (String × String)) : Option Request :=
  if method = "GET" then
    some { method := method, url := url, body := Body.empty,
           headers := headers_out, allow_redirects := true, timeout := TIMEOUT }
  else if method = "DELETE" then
    some { method := method, url := url, body := Body.empty,
           headers := headers_out, allow_redirects := false, timeout := TIMEOUT }
  else if method = "PUT" ∨ method = "POST" ∨ method = "PATCH" then
    some { method := method, url := url, body := Body.jsonBody data,
           headers := headers_out, allow_redirects := false, timeout := TIMEOUT }
  else if method = "POST_RAW" ∨ method = "PUT_RAW" then
    some { method := method, url := url, body := Body.rawBody data,
           headers := headers_out, allow_redirects := false, timeout := TIMEOUT }
  else none

/-- What the transport does with a request: return a response, raise a
`requests.exceptions.ConnectionError`, or raise a
`requests.exceptions.Timeout`. -/
inductive TransportOutcome where
  | resp : Response → TransportOutcome
  | connError : TransportOutcome
  | timeout : TransportOutcome

/-- The message of the `BrainServerError` raised on a connection error. -/
def connErrorMsg (url req_id : String) : String :=
  "Connection Error. Unable to connect to domain: " ++ url ++
    ". Request ID: " ++ req_id

/-- The message of the `BrainServerError` raised on a timeout. -/
def timeoutMsg (url req_id : String) : String :=
  "Request to " ++ url ++ " timed out. Current timeout is " ++
    toString TIMEOUT ++ " seconds. Use the --timeout/-t option to adjust the " ++
    "timeout. Request ID: " ++ req_id

/-- The `HTTPError` message produced by `response.raise_for_status()` of
`requests` for a 4xx/5xx response. -/
def raiseForStatusMsg (r : Response) (url : String) : String :=
  if r.status_code < 500 then
    toString r.status_code ++ " Client Error: " ++ r.reason ++ " for url: " ++ url
  else
    toString r.status_code ++ " Server Error: " ++ r.reason ++ " for url: " ++ url

/-- The `HTTPError` message substituted by `_raise_on_redirect` for a 301
response: it names the configured base API URL. -/
def redirectMsg (status_code : Int) (api_url : String) : String :=
  toString status_code ++ " Moved Permanently: Likely misconfigured url: " ++ api_url

/-- Everything one call of `_try_http_request` produces: its result (or
raised error), the request it sent (if the verb dispatch was reached), the
scrubbed header dump it logged, and the advanced uuid draw counter. -/
structure TryResult where
  result : Except DispatchError (List (String × Value))
  sent : Option Request
  logged : List (String × String)
  nextCtr : Nat

/-- The headers finally handed to the transport: the base headers (with
the fresh `RequestId`), overlaid by the caller-supplied extra headers —
so the extras may override anything, including `Authorization`. -/
def headersOutOf (st : ClientState) (reqIdHeader : String)
    (extraHeaders : Option (List (String × String))) : List (String × String) :=
  match extraHeaders with
  | some hs => updAll (updAll (getHeaders st) [("RequestId", reqIdHeader)]) hs
  | none => updAll (getHeaders st) [("RequestId", reqIdHeader)]

/-- Model of `_try_http_request(http_method, url, data, headers)`.

`send` is the transport oracle, `uuid` the `uuid4` supply indexed by the
draw counter `ctr`.  The call draws `req_id` and then a second, distinct
uuid for the `RequestId` header; logs a scrubbed header dump; overlays the
caller-supplied extra headers; dispatches on the verb; and converts the
transport outcome: connection error and timeout become `BrainServerError`
messages, a 4xx/5xx response (`raise_for_status`) and a 301 response
(`_raise_on_redirect`) are routed through `_handle_and_raise`, and any
other response is normalized by `_dict`. -/
def tryHttpRequest (send : Request → TransportOutcome) (uuid : Nat → String)
    (ctr : Nat) (st : ClientState) (method url : String)
    (data : Option (List (String × Value)))
    (extraHeaders : Option (List (String × String))) : TryResult :=
  let req_id := uuid ctr
  let logged := scrubHeaders (updAll (getHeaders st) [("RequestId", uuid (ctr + 1))])
  match buildRequest method url data (headersOutOf st (uuid (ctr + 1)) extraHeaders) with
  | none =>
    { result := Except.error (DispatchError.usage "UNSUPPORTED HTTP REQUEST METHOD"),
      sent := none, logged := logged, nextCtr := ctr + 2 }
  | some req =>
    match send req with
    | TransportOutcome.connError =>
      { result := Except.error (DispatchError.brain
          (BrainError.fromStr (connErrorMsg url req_id))),
        sent := some req, logged := logged, nextCtr := ctr + 2 }
    | TransportOutcome.timeout =>
      { result := Except.error (DispatchError.brain
          (BrainError.fromStr (timeoutMsg url req_id))),
        sent := some req, logged := logged, nextCtr := ctr + 2 }
    | TransportOutcome.resp r =>
      if 400 ≤ r.status_code ∧ r.status_code < 600 then
        { result := Except.error (DispatchError.brain
            (BrainError.fromDict (handleAndRaise r (raiseForStatusMsg r url) req_id))),
          sent := some req, logged := logged, nextCtr := ctr + 2 }
      else if r.status_code = 301 then
        { result := Except.error (DispatchError.brain
            (BrainError.fromDict
              (handleAndRaise r (redirectMsg r.status_code st.api_url) req_id))),
          sent := some req, logged := logged, nextCtr := ctr + 2 }
      else
        { result := Except.ok (dictFn r req_id),
          sent := some req, logged := logged, nextCtr := ctr + 2 }

/-- Everything one call of `_http_request` produces: its result, the final
client state (the credential may have been replaced), the list of requests
actually sent, and the advanced uuid draw counter. -/
structure DispatchResult where
  result : Except DispatchError (List (String × Value))
  finalState : ClientState
  sent : List Request
  nextCtr : Nat

/-- Model of `_http_request`: run `_try_http_request` once; if it raises a
`BrainServerError` whose text contains a legacy-auth sentinel, obtain a
fresh credential from the AAD client (`getToken`, applied to the tenant
id), replace `self._access_key`, and run `_try_http_request` once more
with the same verb, url, payload and extra headers; any other error — and
any failure of the retry itself — propagates unmodified.  `send` is the
transport oracle indexed by attempt number. -/
def httpRequest (send : Nat → Request → TransportOutcome) (uuid : Nat → String)
    (getToken : Option String → String) (st : ClientState) (method url : String)
    (data : Option (List (String × Value)))
    (extraHeaders : Option (List (String × String))) : DispatchResult :=
  let t0 := tryHttpRequest (send 0) uuid 0 st method url data extraHeaders
  match t0.result with
  | Except.ok rec =>
    { result := Except.ok rec, finalState := st,
      sent := t0.sent.toList, nextCtr := t0.nextCtr }
  | Except.error (DispatchError.usage m) =>
    { result := Except.error (DispatchError.usage m), finalState := st,
      sent := t0.sent.toList, nextCtr := t0.nextCtr }
  | Except.error (DispatchError.brain err) =>
    if hasSentinelText (brainErrorText err) = true then
      let st' := { st with access_key := getToken st.tenant_id }
      let t1 := tryHttpRequest (send 1) uuid t0.nextCtr st' method url data extraHeaders
      { result := t1.result, finalState := st',
        sent := t0.sent.toList ++ t1.sent.toList, nextCtr := t1.nextCtr }
    else
      { result := Except.error (DispatchError.brain err), finalState := st,
        sent := t0.sent.toList, nextCtr := t0.nextCtr }

/-- A segment of a Python `str.format` template: literal text or a named
replacement field. -/
inductive Seg where
  | lit : String → Seg
  | param : String → Seg

/-- Keyword-argument lookup for `str.format` (a plain, case-sensitive
dict lookup). -/
def lookupArg (args : List (String × String)) (k : String) : Option String :=
  (args.find? (fun p => p.1 == k)).map (fun p => p.2)

/-- Python `template.format(**args)`: substitute each replacement field;
a field whose name is not among the keyword arguments raises
`KeyError(name)`. -/
def pyFormat : List Seg → List (String × String) → Except String String
  | [], _ => Except.ok ""
  | Seg.lit s :: rest, args => (pyFormat rest args).map (fun t => s ++ t)
  | Seg.param p :: rest, args =>
    match lookupArg args p with
    | some v => (pyFormat rest args).map (fun t => v ++ t)
    | none => Except.error p

/-- `_LIST_BRAINS_URL_PATH_TEMPLATE = "/v2/workspaces/{workspacename}/brains"`. -/
def LIST_BRAINS_TEMPLATE : List Seg :=
  [Seg.lit "/v2/workspaces/", Seg.param "workspacename", Seg.lit "/brains"]

/-- `_CREATE_BRAIN_URL_PATH_TEMPLATE = "/v2/workspaces/{workspacename}/brains/{name}"`. -/
def CREATE_BRAIN_TEMPLATE : List Seg :=
  [Seg.lit "/v2/workspaces/", Seg.param "workspacename", Seg.lit "/brains/",
   Seg.param "name"]

/-- `_UPDATE_SIM_COLLECTION_URL_PATH_TEMPLATE =
"/v2/workspaces/{workspacename}/simulatorpackages/{simulatorpackagename}/simulatorcollections/{collectionid}"`. -/
def UPDATE_SIM_COLLECTION_TEMPLATE : List Seg :=
  [Seg.lit "/v2/workspaces/", Seg.param "workspacename",
   Seg.lit "/simulatorpackages/", Seg.param "simulatorpackagename",
   Seg.lit "/simulatorcollections/", Seg.param "collectionid"]

/-- The workspace selection idiom of every resource method:
`workspace if workspace else self._workspace_id` — a truthiness test, so
both `None` and the empty string select the configured default. -/
def chooseWorkspace (workspace : Option String) (default_ws : String) : String :=
  match workspace with
  | some w => if w = "" then default_ws else w
  | none => default_ws

/-- Scan for `://` splitting a URL into scheme and remainder. -/
def findScheme : List Char → Option (List Char × List Char)
  | ':' :: '/' :: '/' :: rest => some ([], rest)
  | c :: cs => (findScheme cs).map (fun p => (c :: p.1, p.2))
  | [] => none

/-- The authority (host-port) part: everything up to the first `/`. -/
def hostPart : List Char → List Char
  | [] => []
  | '/' :: _ => []
  | c :: cs => c :: hostPart cs

/-- Model of `urllib.parse.urljoin(base, rel)` restricted to the shapes the
client uses: every URL path template is root-relative (starts with `/`),
so the join keeps the scheme and authority of the base and replaces its
path. -/
def urljoinModel (base rel : String) : String :=
  match findScheme base.data with
  | some (scheme, afterScheme) =>
    String.mk (scheme ++ ':' :: '/' :: '/' :: hostPart afterScheme ++ rel.data)
  | none => rel

/-- JSON serialization of an optional-string payload field (`None` becomes
`null`). -/
def optVal : Option String → Value
  | some s => Value.jstr s
  | none => Value.jnull

/-- Model of `BonsaiAPI.list_brains`: format the path from the selected
workspace, join it onto the base API URL, and GET it. -/
def list_brains (send : Nat → Request → TransportOutcome) (uuid : Nat → String)
    (getToken : Option String → String) (st : ClientState)
    (workspace : Option String) : Except String DispatchResult :=
  match pyFormat LIST_BRAINS_TEMPLATE
      [("workspacename", chooseWorkspace workspace st.workspace_id)] with
  | Except.error k => Except.error k
  | Except.ok path =>
    Except.ok (httpRequest send uuid getToken st "GET"
      (urljoinModel st.api_url path) none none)

/-- Model of `BonsaiAPI.create_brain`: format the path, build the payload
`{"name": name, "displayName": display_name, "description": description}`,
and PUT it. -/
def create_brain (send : Nat → Request → TransportOutcome) (uuid : Nat → String)
    (getToken : Option String → String) (st : ClientState)
    (name display_name : String) (description : Option String)
    (workspace : Option String) : Except String DispatchResult :=
  match pyFormat CREATE_BRAIN_TEMPLATE
      [("workspacename", chooseWorkspace workspace st.workspace_id),
       ("name", name)] with
  | Except.error k => Except.error k
  | Except.ok path =>
    Except.ok (httpRequest send uuid getToken st "PUT"
      (urljoinModel st.api_url path)
      (some [("name", Value.jstr name), ("displayName", Value.jstr display_name),
             ("description", optVal description)]) none)

/-- Model of `BonsaiAPI.update_sim_collection`: the path template names the
placeholder `simulatorpackagename`, but the `format` call supplies the
keyword `simulatorpackageName`; a `KeyError` from `format` aborts the call
before any request is dispatched. -/
def update_sim_collection (send : Nat → Request → TransportOutcome)
    (uuid : Nat → String) (getToken : Option String → String) (st : ClientState)
    (sim_package_name collection_id : String) (description : Option String)
    (workspace : Option String) : Except String DispatchResult :=
  match pyFormat UPDATE_SIM_COLLECTION_TEMPLATE
      [("workspacename", chooseWorkspace workspace st.workspace_id),
       ("simulatorpackageName", sim_package_name),
       ("collectionid", collection_id)] with
  | Except.error k => Except.error k
  | Except.ok path =>
    Except.ok (httpRequest send uuid getToken st "PATCH"
      (urljoinModel st.api_url path)
      (some [("description", optVal description)]) none)

/-- JSON whitespace (as accepted between tokens by Python `json.loads`). -/
def isWsChar (c : Char) : Bool := c = ' ' || c = '\t' || c = '\n' || c = '\r'

/-- Skip JSON whitespace. -/
def skipWs : List Char → List Char
  | [] => []
  | c :: cs => if isWsChar c then skipWs cs else c :: cs

/-- The character produced by a two-character escape sequence inside a
JSON string literal; `none` for an invalid escape (which `json.loads`
rejects in its default strict mode). -/
def escChar : Char → Option Char
  | '"' => some '"'
  | '\\' => some '\\'
  | '/' => some '/'
  | 'b' => some (Char.ofNat 8)
  | 'f' => some (Char.ofNat 12)
  | 'n' => some '\n'
  | 'r' => some (Char.ofNat 13)
  | 't' => some '\t'
  | _ => none

/-- Hexadecimal digit test for `\uXXXX` escapes. -/
def isHexDigit (c : Char) : Bool :=
  ('0' ≤ c && c ≤ '9') || ('a' ≤ c && c ≤ 'f') || ('A' ≤ c && c ≤ 'F')

/-- Value of one hexadecimal digit. -/
def hexVal (c : Char) : Nat :=
  if '0' ≤ c && c ≤ '9' then c.toNat - 48
  else if 'a' ≤ c && c ≤ 'f' then c.toNat - 87
  else c.toNat - 55

/-- Parse the body of a JSON string literal (the opening quote already
consumed): returns the decoded characters and the input after the closing
quote.  An unescaped control character, an invalid escape, or a missing
closing quote is a parse failure, exactly as in strict `json.loads`. -/
def parseStrBody : List Char → Option (List Char × List Char)
  | [] => none
  | c :: cs =>
    if c = '"' then some ([], cs)
    else if c = '\\' then
      match cs with
      | [] => none
      | e :: cs2 =>
        if e = 'u' then
          match cs2 with
          | h1 :: h2 :: h3 :: h4 :: cs3 =>
            if isHexDigit h1 && isHexDigit h2 && isHexDigit h3 && isHexDigit h4 then
              match parseStrBody cs3 with
              | some (v, rest) =>
                some (Char.ofNat
                  (((hexVal h1 * 16 + hexVal h2) * 16 + hexVal h3) * 16 + hexVal h4)
                  :: v, rest)
              | none => none
            else none
          | _ => none
        else
          match escChar e with
          | some r =>
            match parseStrBody cs2 with
            | some (v, rest) => some (r :: v, rest)
            | none => none
          | none => none
    else if c.toNat < 32 then none
    else
      match parseStrBody cs with
      | some (v, rest) => some (c :: v, rest)
      | none => none

/-- Skip whitespace, then require a specific character. -/
def expectChar (c : Char) (xs : List Char) : Option (List Char) :=
  match skipWs xs with
  | d :: rest => if d = c then some rest else none
  | [] => none

/-- One or more decimal digits. -/
def parseDigits : List Char → Option (Nat × List Char)
  | c :: cs =>
    if c.isDigit then
      match parseDigits cs with
      | some (n, rest) => some (n, rest)
      | none => some (c.toNat - 48, cs)
    else none
  | [] => none

/-- JSON literals and (integer) numbers; the mediation layer never feeds
fractional numbers through this path. -/
def parseAtom : List Char → Option (Value × List Char)
  | 't' :: 'r' :: 'u' :: 'e' :: rest => some (Value.jbool true, rest)
  | 'f' :: 'a' :: 'l' :: 's' :: 'e' :: rest => some (Value.jbool false, rest)
  | 'n' :: 'u' :: 'l' :: 'l' :: rest => some (Value.jnull, rest)
  | '-' :: cs =>
    match parseDigits cs with
    | some (n, rest) => some (Value.jnum (-(n : Int)), rest)
    | none => none
  | xs =>
    match parseDigits xs with
    | some (n, rest) => some (Value.jnum (n : Int), rest)
    | none => none

mutual

/-- Parse one JSON value.  The fuel argument bounds the recursion: every
recursive entry strictly decreases it, and the top-level entry supplies
ample fuel (more than three times the input length), so fuel exhaustion is
unreachable for real inputs. -/
def parseValue : Nat → List Char → Option (Value × List Char)
  | 0, _ => none
  | fuel + 1, xs =>
    match skipWs xs with
    | [] => none
    | c :: cs =>
      if c = '"' then
        (parseStrBody cs).map (fun vr => (Value.jstr (String.mk vr.1), vr.2))
      else if c = '{' then parseObjBody fuel cs
      else if c = '[' then parseArrBody fuel cs
      else parseAtom (c :: cs)

/-- Parse an object body (the `{` already consumed). -/
def parseObjBody : Nat → List Char → Option (Value × List Char)
  | 0, _ => none
  | fuel + 1, xs =>
    match skipWs xs with
    | '}' :: rest => some (Value.jobj [], rest)
    | _ => (parseMembers fuel xs).map (fun mr => (Value.jobj mr.1, mr.2))

/-- Parse a non-empty comma-separated member list and the closing `}`. -/
def parseMembers : Nat → List Char → Option (List (String × Value) × List Char)
  | 0, _ => none
  | fuel + 1, xs =>
    (expectChar '"' xs).bind (fun cs =>
      (parseStrBody cs).bind (fun kr =>
        (expectChar ':' kr.2).bind (fun rest2 =>
          (parseValue fuel rest2).bind (fun vr =>
            memberTail fuel (String.mk kr.1) vr.1 vr.2))))

/-- After one member: a comma continues the member list, a brace closes
the object. -/
def memberTail : Nat → String → Value → List Char →
    Option (List (String × Value) × List Char)
  | 0, _, _, _ => none
  | fuel + 1, k, v, rest3 =>
    match skipWs rest3 with
    | ',' :: rest4 => (parseMembers fuel rest4).map (fun mr => ((k, v) :: mr.1, mr.2))
    | '}' :: rest4 => some ([(k, v)], rest4)
    | _ => none

/-- Parse an array body (the `[` already consumed). -/
def parseArrBody : Nat → List Char → Option (Value × List Char)
  | 0, _ => none
  | fuel + 1, xs =>
    match skipWs xs with
    | ']' :: rest => some (Value.jarr [], rest)
    | _ => (parseElems fuel xs).map (fun er => (Value.jarr er.1, er.2))

/-- Parse a non-empty comma-separated element list and the closing `]`. -/
def parseElems : Nat → List Char → Option (List Value × List Char)
  | 0, _ => none
  | fuel + 1, xs =>
    (parseValue fuel xs).bind (fun vr => elemTail fuel vr.1 vr.2)

/-- After one element: a comma continues the element list, a bracket closes
the array. -/
def elemTail : Nat → Value → List Char → Option (List Value × List Char)
  | 0, _, _ => none
  | fuel + 1, v, rest =>
    match skipWs rest with
    | ',' :: rest2 => (parseElems fuel rest2).map (fun er => (v :: er.1, er.2))
    | ']' :: rest2 => some ([v], rest2)
    | _ => none

end

/-- Model of Python `json.loads`: parse one value and require only
whitespace to remain. -/
def jsonParse (xs : List Char) : Option Value :=
  match parseValue (3 * xs.length + 3) xs with
  | some (v, rest) =>
    match skipWs rest with
    | [] => some v
    | _ => none
  | none => none

/-- The literal template text before the `action` value in the
string-interpolated purpose object of `create_sim_collection` /
`patch_sim_session`. -/
def tplA : List Char := ['{', '"', 'a', 'c', 't', 'i', 'o', 'n', '"', ':', ' ', '"']

/-- The literal template text between the `action` value and the
`workspaceName` value. -/
def tplB : List Char :=
  ['"', ',', ' ', '"', 't', 'a', 'r', 'g', 'e', 't', '"', ':', ' ', '{',
   '"', 'w', 'o', 'r', 'k', 's', 'p', 'a', 'c', 'e', 'N', 'a', 'm', 'e',
   '"', ':', ' ', '"']

/-- The literal template text between the `workspaceName` value and the
`brainName` value. -/
def tplC : List Char :=
  ['"', ',', ' ', '"', 'b', 'r', 'a', 'i', 'n', 'N', 'a', 'm', 'e', '"',
   ':', ' ', '"']

/-- The literal template text between the `brainName` value and the
`brainVersion` value. -/
def tplD : List Char :=
  ['"', ',', ' ', '"', 'b', 'r', 'a', 'i', 'n', 'V', 'e', 'r', 's', 'i',
   'o', 'n', '"', ':', ' ', '"']

/-- The literal template text between the `brainVersion` value and the
`conceptName` value. -/
def tplE : List Char :=
  ['"', ',', ' ', '"', 'c', 'o', 'n', 'c', 'e', 'p', 't', 'N', 'a', 'm',
   'e', '"', ':', ' ', '"']

/-- The literal template text after the `conceptName` value. -/
def tplF : List Char := ['"', ' ', ' ', '}', ' ', '}']

/-- The exact string handed to `json.loads` by `create_sim_collection` and
`patch_sim_session`: the purpose template with the five values
interpolated verbatim by `str.format` (the brain version is an `int`,
stringified by `format`). -/
def purposeChars (action ws brain ver concept : String) : List Char :=
  tplA ++ action.data ++ tplB ++ ws.data ++ tplC ++ brain.data ++
    tplD ++ ver.data ++ tplE ++ concept.data ++ tplF

/-- The purpose object the interpolation is meant to produce. -/
def expectedPurpose (action ws brain ver concept : String) : Value :=
  Value.jobj
    [("action", Value.jstr action),
     ("target", Value.jobj
       [("workspaceName", Value.jstr ws),
        ("brainName", Value.jstr brain),
        ("brainVersion", Value.jstr ver),
        ("conceptName", Value.jstr concept)])]

/-- Does the string contain a double quote or a backslash? -/
def hasBad (s : String) : Bool := s.data.any (fun c => c = '"' || c = '\\')

/-- Is the parsed JSON body a dict (`isinstance(response.json(), dict)`)? -/
def isObjV : Value → Bool
  | Value.jobj _ => true
  | _ => false

/-- The status fields alone, as added by `_dict` on an empty body
mapping. -/
def statusFields (r : Response) : List (String × Value) := statusOverlay r []

/-! ### Concrete test fixtures used to witness the theorems -/

/-- A deterministic uuid supply for concrete runs. -/
def uuidW (n : Nat) : String := "u" ++ toString n

/-- A 500 response with a plain error envelope. -/
def errRespW : Response :=
  { status_code := 500, reason := "Internal Server Error", text := "x",
    json := some (Value.jobj [("error", Value.jobj
      [("code", Value.jstr "InternalError"), ("message", Value.jstr "boom")])]),
    elapsed := 2, headers := [] }

/-- A transport that always answers with the 500 response. -/
def sendW (_attempt : Nat) (_req : Request) : TransportOutcome :=
  TransportOutcome.resp errRespW

/-- A concrete client state. -/
def stW : ClientState :=
  { access_key := "OLDKEY-0123456789", workspace_id := "ws",
    tenant_id := some "tn", api_url := "https://api.bons.ai",
    gateway_url := "https://gw.bons.ai",
    user_info := "bonsai-cli/1.0.0 (python 3.8.0; linux)" }

/-- A concrete request URL. -/
def urlW : String := "https://api.bons.ai/v2/workspaces/ws/brains"

/-- A 401 response whose error code is the legacy-auth sentinel. -/
def errRespSentinel : Response :=
  { status_code := 401, reason := "Unauthorized", text := "x",
    json := some (Value.jobj [("error", Value.jobj
      [("code", Value.jstr "BonsaiAuthDeprecated"),
       ("message", Value.jstr "key auth is deprecated")])]),
    elapsed := 3, headers := [] }

/-- A transport whose first attempt hits the legacy-auth rejection and
whose retry hits the plain 500. -/
def sendW1 (attempt : Nat) (_req : Request) : TransportOutcome :=
  if attempt = 0 then TransportOutcome.resp errRespSentinel
  else TransportOutcome.resp errRespW

/-- A concrete AAD token supply. -/
def getTokW (_tenant : Option String) : String := "NEWTOKEN-abcdef"

/-- The client state after the fallback replaced the credential. -/
def stW2 : ClientState := { stW with access_key := getTokW stW.tenant_id }

/-- A concrete JSON payload. -/
def dataW : Option (List (String × Value)) := some [("name", Value.jstr "b1")]

/-- The structured error raised by the first (legacy-auth) attempt of
`sendW1`. -/
def eW : BrainError :=
  BrainError.fromDict
    (handleAndRaise errRespSentinel (raiseForStatusMsg errRespSentinel urlW) (uuidW 0))

/-- A 301 response. -/
def resp301 : Response :=
  { status_code := 301, reason := "Moved Permanently", text := "",
    json := none, elapsed := 1, headers := [] }

/-- A transport that always answers 301. -/
def send301W (_req : Request) : TransportOutcome := TransportOutcome.resp resp301

/-- A 200 response with a non-JSON, non-empty body. -/
def respTextW : Response :=
  { status_code := 200, reason := "OK", text := "not json", json := none,
    elapsed := 1, headers := [("x-ms-response-time", "12ms")] }

/-- A 200 response with a JSON array body. -/
def respArrW : Response :=
  { status_code := 200, reason := "OK", text := "[1]",
    json := some (Value.jarr [Value.jnum 1]), elapsed := 1,
    headers := [("x-ms-response-time", "12ms")] }

/-- A 200 response with a JSON object body that collides with the status
keys. -/
def respObjW : Response :=
  { status_code := 200, reason := "OK",
    text := "x",
    json := some (Value.jobj [("a", Value.jnum 1), ("status", Value.jstr "bogus")]),
    elapsed := 1, headers := [("x-ms-response-time", "12ms")] }

/-- A 200 response whose JSON object body carries a `timeTaken` field while
the timing header is absent. -/
def cexResp : Response :=
  { status_code := 200, reason := "OK", text := "x",
    json := some (Value.jobj [("timeTaken", Value.jstr "from-body")]),
    elapsed := 7, headers := [] }

/-- The decoding relation of a JSON string-literal body: `UnescRel cs vs`
holds when the escape-processing of the consumed characters `cs` (which
exclude the closing quote) yields the decoded characters `vs`. -/
inductive UnescRel : List Char → List Char → Prop where
  | nil : UnescRel [] []
  | chr {c : Char} {cs vs : List Char} : c ≠ '"' → c ≠ '\\' → ¬ c.toNat < 32 →
      UnescRel cs vs → UnescRel (c :: cs) (c :: vs)
  | esc {e r : Char} {cs vs : List Char} : e ≠ 'u' → escChar e = some r →
      UnescRel cs vs → UnescRel ('\\' :: e :: cs) (r :: vs)
  | uesc {h1 h2 h3 h4 : Char} {cs vs : List Char} :
      (isHexDigit h1 && isHexDigit h2 && isHexDigit h3 && isHexDigit h4) = true →
      UnescRel cs vs →
      UnescRel ('\\' :: 'u' :: h1 :: h2 :: h3 :: h4 :: cs)
        (Char.ofNat (((hexVal h1 * 16 + hexVal h2) * 16 + hexVal h3) * 16 +
          hexVal h4) :: vs)

/-- Quote count of a character list. -/
def countQuote (l : List Char) : Nat := l.countP (fun c => c = '"')

/-! ### Association-list lemmas -/

theorem find?_map_overwrite (l : List (String × α)) {k k' : String} (v : α)
    (h : k ≠ k') :
    List.find? (fun q => q.1 == k') (l.map fun q => if q.1 == k then (k, v) else q)
      = List.find? (fun q => q.1 == k') l := by
  induction l with
  | nil => rfl
  | cons q l ihq =>
    by_cases hq : q.1 = k
    · have h0 : (q.1 == k) = true := by rw [hq]; exact beq_self_eq_true k
      have h1 : (q.1 == k') = false := by rw [hq]; exact beq_eq_false_iff_ne.mpr h
      have h2 : (k == k') = false := beq_eq_false_iff_ne.mpr h
      simp only [List.map_cons, h0, if_true, List.find?_cons, h1, h2, ihq]
    · have h3 : (q.1 == k) = false := beq_eq_false_iff_ne.mpr hq
      simp only [List.map_cons, h3, Bool.false_eq_true, if_false, List.find?_cons, ihq]

theorem find?_map_overwrite_self (l : List (String × α)) {k : String} (v : α)
    (h : (l.any fun q => q.1 == k) = true) :
    List.find? (fun q => q.1 == k) (l.map fun q => if q.1 == k then (k, v) else q)
      = some (k, v) := by
  induction l with
  | nil => simp at h
  | cons q l ihq =>
    by_cases hq : q.1 = k
    · have h0 : (q.1 == k) = true := by rw [hq]; exact beq_self_eq_true k
      simp only [List.map_cons, h0, if_true, List.find?_cons, beq_self_eq_true]
    · have h3 : (q.1 == k) = false := beq_eq_false_iff_ne.mpr hq
      have h' : (l.any fun q => q.1 == k) = true := by
        simpa [List.any_cons, h3] using h
      simp only [List.map_cons, h3, Bool.false_eq_true, if_false, List.find?_cons, ihq h']

theorem getKey?_setKey_self (d : List (String × α)) (k : String) (v : α) :
    getKey? (setKey d k v) k = some v := by
  unfold setKey getKey?
  by_cases hany : (d.any fun q => q.1 == k) = true
  · rw [if_pos hany, find?_map_overwrite_self d v hany]
    rfl
  · rw [if_neg hany]
    have hnone : List.find? (fun q => q.1 == k) d = none := by
      rw [List.find?_eq_none]
      intro x hx
      intro hbeq
      exact hany (List.any_eq_true.mpr ⟨x, hx, hbeq⟩)
    rw [List.find?_append, hnone]
    simp

theorem getKey?_setKey_other (d : List (String × α)) {k k' : String} (v : α)
    (h : k' ≠ k) : getKey? (setKey d k v) k' = getKey? d k' := by
  unfold setKey getKey?
  by_cases hany : (d.any fun q => q.1 == k) = true
  · rw [if_pos hany, find?_map_overwrite d v (Ne.symm h)]
  · rw [if_neg hany, List.find?_append]
    have h2 : (k == k') = false := beq_eq_false_iff_ne.mpr (Ne.symm h)
    simp [List.find?, h2]

/-! ### Substring lemmas -/

theorem hasPre_self_append (n s : List Char) : hasPre n (n ++ s) = true := by
  induction n with
  | nil => rfl
  | cons c cs ih => simp [hasPre, ih]

theorem hasSub_mid (pre n s : List Char) : hasSub n (pre ++ (n ++ s)) = true := by
  induction pre with
  | nil =>
    rw [List.nil_append, hasSub.eq_def, hasPre_self_append]
    rfl
  | cons c cs ih =>
    rw [List.cons_append, hasSub.eq_def]
    simp only [ih, Bool.or_true]

theorem strContains_append_right (a b : String) :
    strContains (a ++ b) b = true := by
  have := hasSub_mid a.data b.data []
  simpa [strContains, String.data_append] using this

/-! ### C10: empty-string workspace selects the default workspace -/

/-- C10 — For every resource method, passing the empty string as the
explicit workspace argument is treated the same as passing no workspace at
all: the workspace-selection idiom tests truthiness, so the URL is built
with the client's configured default workspace.  Stated for the shared
selection function and for the two methods the claim cites
(`list_brains`, `create_brain`). -/
theorem c10_empty_workspace_is_default
    (send : Nat → Request → TransportOutcome) (uuid : Nat → String)
    (getToken : Option String → String) (st : ClientState)
    (name display_name : String) (description : Option String) :
    chooseWorkspace (some "") st.workspace_id = chooseWorkspace none st.workspace_id
    ∧ list_brains send uuid getToken st (some "") = list_brains send uuid getToken st none
    ∧ create_brain send uuid getToken st name display_name description (some "") =
        create_brain send uuid getToken st name display_name description none := by
  refine ⟨rfl, ?_, ?_⟩ <;> rfl

/-! ### C8: update_sim_collection always raises KeyError -/

/-- C8 — For every input, `update_sim_collection` raises an unhandled
`KeyError` while formatting its URL path: the template placeholder is
`simulatorpackagename`, but the `format` call supplies
`simulatorpackageName`, so the operation aborts before any HTTP request is
issued and never produces a result record or a structured error. -/
theorem c8_update_sim_collection_keyerror
    (send : Nat → Request → TransportOutcome) (uuid : Nat → String)
    (getToken : Option String → String) (st : ClientState)
    (sim_package_name collection_id : String) (description : Option String)
    (workspace : Option String) :
    update_sim_collection send uuid getToken st sim_package_name collection_id
      description workspace = Except.error "simulatorpackagename" := rfl

/-! ### Normalizer and header helper lemmas -/

theorem setKey_cons_ne (a : String) (b : α) (d : List (String × α)) (k : String)
    (w : α) (h : (a == k) = false) :
    setKey ((a, b) :: d) k w = (a, b) :: setKey d k w := by
  unfold setKey
  rw [List.any_cons]
  simp only [h, Bool.false_or]
  by_cases hany : (d.any fun q => q.1 == k) = true
  · rw [if_pos hany, if_pos hany, List.map_cons]
    simp only [h, Bool.false_eq_true, if_false]
  · rw [if_neg hany, if_neg hany, List.cons_append]

theorem statusOverlay_status (r : Response) (d : List (String × Value)) :
    getKey? (statusOverlay r d) "status" =
      some (Value.jstr (if respOk r then "Succeeded" else "Failed")) := by
  unfold statusOverlay
  dsimp only
  cases hh : headerGet r.headers "x-ms-response-time" with
  | some t =>
    rw [getKey?_setKey_other _ _ (by decide : ("status":String) ≠ "timeTaken"),
      getKey?_setKey_other _ _ (by decide : ("status":String) ≠ "elapsed"),
      getKey?_setKey_other _ _ (by decide : ("status":String) ≠ "statusMessage"),
      getKey?_setKey_other _ _ (by decide : ("status":String) ≠ "statusCode"),
      getKey?_setKey_self]
  | none =>
    rw [getKey?_setKey_other _ _ (by decide : ("status":String) ≠ "elapsed"),
      getKey?_setKey_other _ _ (by decide : ("status":String) ≠ "statusMessage"),
      getKey?_setKey_other _ _ (by decide : ("status":String) ≠ "statusCode"),
      getKey?_setKey_self]

theorem statusOverlay_statusCode (r : Response) (d : List (String × Value)) :
    getKey? (statusOverlay r d) "statusCode" = some (Value.jnum r.status_code) := by
  unfold statusOverlay
  dsimp only
  cases hh : headerGet r.headers "x-ms-response-time" with
  | some t =>
    rw [getKey?_setKey_other _ _ (by decide : ("statusCode":String) ≠ "timeTaken"),
      getKey?_setKey_other _ _ (by decide : ("statusCode":String) ≠ "elapsed"),
      getKey?_setKey_other _ _ (by decide : ("statusCode":String) ≠ "statusMessage"),
      getKey?_setKey_self]
  | none =>
    rw [getKey?_setKey_other _ _ (by decide : ("statusCode":String) ≠ "elapsed"),
      getKey?_setKey_other _ _ (by decide : ("statusCode":String) ≠ "statusMessage"),
      getKey?_setKey_self]

theorem statusOverlay_statusMessage (r : Response) (d : List (String × Value)) :
    getKey? (statusOverlay r d) "statusMessage" = some (Value.jstr "") := by
  unfold statusOverlay
  dsimp only
  cases hh : headerGet r.headers "x-ms-response-time" with
  | some t =>
    rw [getKey?_setKey_other _ _ (by decide : ("statusMessage":String) ≠ "timeTaken"),
      getKey?_setKey_other _ _ (by decide : ("statusMessage":String) ≠ "elapsed"),
      getKey?_setKey_self]
  | none =>
    rw [getKey?_setKey_other _ _ (by decide : ("statusMessage":String) ≠ "elapsed"),
      getKey?_setKey_self]

theorem statusOverlay_elapsed (r : Response) (d : List (String × Value)) :
    getKey? (statusOverlay r d) "elapsed" = some (Value.duration r.elapsed) := by
  unfold statusOverlay
  dsimp only
  cases hh : headerGet r.headers "x-ms-response-time" with
  | some t =>
    rw [getKey?_setKey_other _ _ (by decide : ("elapsed":String) ≠ "timeTaken"),
      getKey?_setKey_self]
  | none => rw [getKey?_setKey_self]

theorem statusOverlay_timeTaken (r : Response) (d : List (String × Value)) :
    getKey? (statusOverlay r d) "timeTaken" =
      match headerGet r.headers "x-ms-response-time" with
      | some t => some (Value.jstr t)
      | none => getKey? d "timeTaken" := by
  unfold statusOverlay
  dsimp only
  cases hh : headerGet r.headers "x-ms-response-time" with
  | some t => rw [getKey?_setKey_self]
  | none =>
    rw [getKey?_setKey_other _ _ (by decide : ("timeTaken":String) ≠ "elapsed"),
      getKey?_setKey_other _ _ (by decide : ("timeTaken":String) ≠ "statusMessage"),
      getKey?_setKey_other _ _ (by decide : ("timeTaken":String) ≠ "statusCode"),
      getKey?_setKey_other _ _ (by decide : ("timeTaken":String) ≠ "status")]

theorem statusOverlay_other (r : Response) (d : List (String × Value)) {k : String}
    (h1 : k ≠ "status") (h2 : k ≠ "statusCode") (h3 : k ≠ "statusMessage")
    (h4 : k ≠ "elapsed") (h5 : k ≠ "timeTaken") :
    getKey? (statusOverlay r d) k = getKey? d k := by
  unfold statusOverlay
  dsimp only
  cases hh : headerGet r.headers "x-ms-response-time" with
  | some t =>
    rw [getKey?_setKey_other _ _ h5, getKey?_setKey_other _ _ h4,
      getKey?_setKey_other _ _ h3, getKey?_setKey_other _ _ h2,
      getKey?_setKey_other _ _ h1]
  | none =>
    rw [getKey?_setKey_other _ _ h4, getKey?_setKey_other _ _ h3,
      getKey?_setKey_other _ _ h2, getKey?_setKey_other _ _ h1]

theorem dictFn_eq_overlay (r : Response) (rid : String)
    (hok : respOk r = true) (htrim : pyStrip r.text ≠ "") :
    dictFn r rid = statusOverlay r
      (match r.json with
       | some v =>
         match v with
         | Value.jobj fs => fs
         | _ => [("value", v)]
       | none => []) := by
  have htext : r.text ≠ "" := by
    intro h
    apply htrim
    rw [h]
    decide
  unfold dictFn
  rw [if_pos ⟨hok, htext, htrim⟩]


theorem tryHttpRequest_logged (send : Request → TransportOutcome)
    (uuid : Nat → String) (ctr : Nat) (st : ClientState) (m u : String)
    (d : Option (List (String × Value))) (ex : Option (List (String × String))) :
    (tryHttpRequest send uuid ctr st m u d ex).logged =
      scrubHeaders (updAll (getHeaders st) [("RequestId", uuid (ctr + 1))]) := by
  unfold tryHttpRequest
  dsimp only
  split
  · rfl
  · split <;> first | rfl | (split <;> first | rfl | (split <;> rfl))

theorem getKey?_scrub_auth (st : ClientState) (rid : String) :
    getKey? (scrubHeaders (updAll (getHeaders st) [("RequestId", rid)]))
      "Authorization" = some (maskAuth st.access_key) := by
  have hupd : updAll (getHeaders st) [("RequestId", rid)] =
      [("Authorization", st.access_key), ("User-Agent", st.user_info),
       ("RequestId", rid)] := rfl
  rw [hupd]
  have hsc : scrubHeaders [("Authorization", st.access_key),
      ("User-Agent", st.user_info), ("RequestId", rid)] =
      if st.access_key ≠ "" then
        setKey [("Authorization", st.access_key), ("User-Agent", st.user_info),
          ("RequestId", rid)] "Authorization" (maskAuth st.access_key)
      else [("Authorization", st.access_key), ("User-Agent", st.user_info),
        ("RequestId", rid)] := rfl
  rw [hsc]
  by_cases h : st.access_key = ""
  · rw [if_neg (by simpa using h)]
    have hm : maskAuth st.access_key = st.access_key := by
      unfold maskAuth
      rw [if_neg (by simpa using h)]
    rw [hm]
    rfl
  · rw [if_pos h]
    rfl

theorem maskAuth_lastTen (t1 t2 : String)
    (h : t1.data.drop (t1.data.length - 10) = t2.data.drop (t2.data.length - 10)) :
    maskAuth t1 = maskAuth t2 := by
  have hnil : ∀ l : List Char, l.drop (l.length - 10) = [] → l = [] := by
    intro l hd
    have hlen := congrArg List.length hd
    rw [List.length_drop] at hlen
    simp only [List.length_nil] at hlen
    exact List.length_eq_zero.mp (by omega)
  by_cases h1 : t1 = ""
  · have ht2 : t2 = "" := by
      apply String.ext
      apply hnil
      rw [← h, h1]
      rfl
    rw [h1, ht2]
  · have h2 : t2 ≠ "" := by
      intro h2
      apply h1
      apply String.ext
      apply hnil
      rw [h, h2]
      rfl
    unfold maskAuth
    rw [if_pos h1, if_pos h2, h]


/-! ### C1: one-shot authentication fallback -/

/-- C1 — For every dispatched request whose first attempt raises a
`BrainServerError` (`e`): if the error text contains a legacy-auth
sentinel, `_http_request` obtains a fresh credential from the AAD client,
replaces the client's current credential, and re-runs `_try_http_request`
exactly once with the same verb, url, payload and extra headers; whatever
that retry produces — success or failure — is returned unmodified, with no
further retry.  If the error text contains no sentinel, the error
propagates unmodified with no retry and no credential change. -/
theorem c1_auth_fallback_retry
    (send : Nat → Request → TransportOutcome) (uuid : Nat → String)
    (getToken : Option String → String) (st : ClientState) (method url : String)
    (data : Option (List (String × Value))) (ex : Option (List (String × String)))
    (e : BrainError)
    (h0 : (tryHttpRequest (send 0) uuid 0 st method url data ex).result =
      Except.error (DispatchError.brain e)) :
    (hasSentinelText (brainErrorText e) = true →
      httpRequest send uuid getToken st method url data ex =
        { result := (tryHttpRequest (send 1) uuid
            (tryHttpRequest (send 0) uuid 0 st method url data ex).nextCtr
            { st with access_key := getToken st.tenant_id } method url data ex).result,
          finalState := { st with access_key := getToken st.tenant_id },
          sent := (tryHttpRequest (send 0) uuid 0 st method url data ex).sent.toList ++
            (tryHttpRequest (send 1) uuid
              (tryHttpRequest (send 0) uuid 0 st method url data ex).nextCtr
              { st with access_key := getToken st.tenant_id } method url data ex).sent.toList,
          nextCtr := (tryHttpRequest (send 1) uuid
            (tryHttpRequest (send 0) uuid 0 st method url data ex).nextCtr
            { st with access_key := getToken st.tenant_id } method url data ex).nextCtr }) ∧
    (hasSentinelText (brainErrorText e) = false →
      httpRequest send uuid getToken st method url data ex =
        { result := Except.error (DispatchError.brain e), finalState := st,
          sent := (tryHttpRequest (send 0) uuid 0 st method url data ex).sent.toList,
          nextCtr := (tryHttpRequest (send 0) uuid 0 st method url data ex).nextCtr }) := by
  constructor
  · intro hs
    unfold httpRequest
    dsimp only
    rw [h0]
    dsimp only
    rw [if_pos hs]
  · intro hs
    unfold httpRequest
    dsimp only
    rw [h0]
    dsimp only
    rw [if_neg (by simp [hs])]

/-- Witness for C1: a concrete run whose first attempt is rejected with the
`BonsaiAuthDeprecated` sentinel retries once with the refreshed credential
and returns the retry's (failing) outcome unmodified. -/
theorem c1_auth_fallback_retry_witness :
    hasSentinelText (brainErrorText eW) = true ∧
    httpRequest sendW1 uuidW getTokW stW "PUT" urlW dataW none =
      { result := (tryHttpRequest (sendW1 1) uuidW
          (tryHttpRequest (sendW1 0) uuidW 0 stW "PUT" urlW dataW none).nextCtr
          stW2 "PUT" urlW dataW none).result,
        finalState := stW2,
        sent := (tryHttpRequest (sendW1 0) uuidW 0 stW "PUT" urlW dataW none).sent.toList ++
          (tryHttpRequest (sendW1 1) uuidW
            (tryHttpRequest (sendW1 0) uuidW 0 stW "PUT" urlW dataW none).nextCtr
            stW2 "PUT" urlW dataW none).sent.toList,
        nextCtr := (tryHttpRequest (sendW1 1) uuidW
          (tryHttpRequest (sendW1 0) uuidW 0 stW "PUT" urlW dataW none).nextCtr
          stW2 "PUT" urlW dataW none).nextCtr } := by
  have hs : hasSentinelText (brainErrorText eW) = true := by decide
  refine ⟨hs, ?_⟩
  exact (c1_auth_fallback_retry sendW1 uuidW getTokW stW "PUT" urlW dataW none
    eW rfl).1 hs

/-! ### C2: status fields versus body fields -/

/-- C2 counterexample — the claim says every body key colliding with
`timeTaken` is overwritten by the normalizer's own value, never the
body's.  On a 200 response whose JSON object body carries `timeTaken` but
whose headers lack `x-ms-response-time`, the `KeyError` aborts the
`timeTaken` assignment and the returned mapping keeps the body's value. -/
theorem c2_timeTaken_counterexample :
    respOk cexResp = true ∧
    cexResp.json = some (Value.jobj [("timeTaken", Value.jstr "from-body")]) ∧
    headerGet cexResp.headers "x-ms-response-time" = none ∧
    getKey? (dictFn cexResp "cid") "timeTaken" = some (Value.jstr "from-body") :=
  ⟨rfl, rfl, rfl, rfl⟩

/-- C2 (amended) — For every successful response whose body is a JSON
object, the returned mapping contains the body's fields, and each of
`status`, `statusCode`, `statusMessage` and `elapsed` always holds the
normalizer's own value; `timeTaken` holds the normalizer's value exactly
when the timing header is present — when it is absent, a body-supplied
`timeTaken` survives. -/
theorem c2_status_fields_overwrite (r : Response) (rid : String)
    (fs : List (String × Value))
    (hok : respOk r = true) (htrim : pyStrip r.text ≠ "")
    (hjson : r.json = some (Value.jobj fs)) :
    getKey? (dictFn r rid) "status" = some (Value.jstr "Succeeded") ∧
    getKey? (dictFn r rid) "statusCode" = some (Value.jnum r.status_code) ∧
    getKey? (dictFn r rid) "statusMessage" = some (Value.jstr "") ∧
    getKey? (dictFn r rid) "elapsed" = some (Value.duration r.elapsed) ∧
    (∀ t, headerGet r.headers "x-ms-response-time" = some t →
      getKey? (dictFn r rid) "timeTaken" = some (Value.jstr t)) ∧
    (headerGet r.headers "x-ms-response-time" = none →
      getKey? (dictFn r rid) "timeTaken" = getKey? fs "timeTaken") ∧
    (∀ k, k ≠ "status" → k ≠ "statusCode" → k ≠ "statusMessage" → k ≠ "elapsed" →
      k ≠ "timeTaken" → getKey? (dictFn r rid) k = getKey? fs k) := by
  have he : dictFn r rid = statusOverlay r fs := by
    rw [dictFn_eq_overlay r rid hok htrim, hjson]
  rw [he]
  refine ⟨?_, statusOverlay_statusCode r fs, statusOverlay_statusMessage r fs,
    statusOverlay_elapsed r fs, ?_, ?_, ?_⟩
  · rw [statusOverlay_status, hok]
    rfl
  · intro t ht
    rw [statusOverlay_timeTaken, ht]
  · intro hn
    rw [statusOverlay_timeTaken, hn]
  · intro k h1 h2 h3 h4 h5
    exact statusOverlay_other r fs h1 h2 h3 h4 h5

/-- Witness for C2: on a 200 response with an object body colliding on
`status` and carrying its own field `a`, the normalizer's `status` wins,
the timing header populates `timeTaken`, and the body field `a`
survives. -/
theorem c2_status_fields_overwrite_witness :
    getKey? (dictFn respObjW "rid") "status" = some (Value.jstr "Succeeded") ∧
    getKey? (dictFn respObjW "rid") "timeTaken" = some (Value.jstr "12ms") ∧
    getKey? (dictFn respObjW "rid") "a" =
      getKey? [("a", Value.jnum 1), ("status", Value.jstr "bogus")] "a" := by
  have h := c2_status_fields_overwrite respObjW "rid"
    [("a", Value.jnum 1), ("status", Value.jstr "bogus")] (by decide) (by decide) rfl
  exact ⟨h.1, h.2.2.2.2.1 "12ms" rfl,
    h.2.2.2.2.2.2 "a" (by decide) (by decide) (by decide) (by decide) (by decide)⟩

/-! ### C3: redirect handling -/

/-- C3 — For every verb except GET the request is sent with
redirect-following disabled; and for every verb, a response with status
301 is routed through `_raise_on_redirect`, so the raised structured error
carries the misconfigured-redirect `HTTPError` whose message names the
configured base API URL rather than a generic redirect failure. -/
theorem c3_redirect_handling :
    (∀ (m u : String) (data : Option (List (String × Value)))
      (hs : List (String × String)),
      m = "DELETE" ∨ m = "PUT" ∨ m = "POST" ∨ m = "PATCH" ∨
        m = "POST_RAW" ∨ m = "PUT_RAW" →
      ∃ req, buildRequest m u data hs = some req ∧ req.allow_redirects = false) ∧
    (∀ (send : Request → TransportOutcome) (uuid : Nat → String) (ctr : Nat)
      (st : ClientState) (m u : String) (data : Option (List (String × Value)))
      (ex : Option (List (String × String))) (req : Request) (r : Response),
      (tryHttpRequest send uuid ctr st m u data ex).sent = some req →
      send req = TransportOutcome.resp r →
      r.status_code = 301 →
      (tryHttpRequest send uuid ctr st m u data ex).result =
        Except.error (DispatchError.brain (BrainError.fromDict
          (handleAndRaise r (redirectMsg r.status_code st.api_url) (uuid ctr)))) ∧
      getKey? (handleAndRaise r (redirectMsg r.status_code st.api_url) (uuid ctr))
        "exception" = some (Value.exc (redirectMsg r.status_code st.api_url)) ∧
      strContains (redirectMsg r.status_code st.api_url) st.api_url = true) := by
  constructor
  · intro m u data hs hm
    rcases hm with h | h | h | h | h | h <;> subst h <;> exact ⟨_, rfl, rfl⟩
  · intro send uuid ctr st m u data ex req r hsent hsend h301
    refine ⟨?_, ?_, ?_⟩
    · unfold tryHttpRequest at hsent ⊢
      dsimp only at hsent ⊢
      rcases hb : buildRequest m u data (headersOutOf st (uuid (ctr + 1)) ex) with _ | q
      · rw [hb] at hsent
        dsimp only at hsent
        exact absurd hsent (by simp)
      · rw [hb] at hsent
        dsimp only at hsent ⊢
        rcases hsq : send q with r' | _ | _ <;> rw [hsq] at hsent <;>
          dsimp only at hsent ⊢
        · have hq : req = q := by
            split at hsent
            · simpa using hsent.symm
            · split at hsent
              · simpa using hsent.symm
              · simpa using hsent.symm
          rw [hq] at hsend
          rw [hsend] at hsq
          have hr : r = r' := by injection hsq
          subst hr
          rw [h301]
          rw [if_neg (by norm_num)]
          rw [if_pos rfl]
        · have hq : req = q := by simpa using hsent.symm
          rw [hq] at hsend
          rw [hsend] at hsq
          simp at hsq
        · have hq : req = q := by simpa using hsent.symm
          rw [hq] at hsend
          rw [hsend] at hsq
          simp at hsq
    · unfold handleAndRaise
      dsimp only
      cases hh : headerGet r.headers "x-ms-response-time" <;> rfl
    · unfold redirectMsg
      exact strContains_append_right _ _

/-- Witness for C3: DELETE is built with redirects disabled, and a concrete
PUT answered with 301 yields the misconfigured-redirect structured error
naming the base API URL. -/
theorem c3_redirect_handling_witness :
    (∃ req, buildRequest "DELETE" urlW none [] = some req ∧
      req.allow_redirects = false) ∧
    (tryHttpRequest send301W uuidW 0 stW "PUT" urlW dataW none).result =
      Except.error (DispatchError.brain (BrainError.fromDict
        (handleAndRaise resp301 (redirectMsg resp301.status_code stW.api_url)
          (uuidW 0)))) ∧
    strContains (redirectMsg resp301.status_code stW.api_url) stW.api_url = true := by
  have hb := c3_redirect_handling.1 "DELETE" urlW none [] (Or.inl rfl)
  have h := c3_redirect_handling.2 send301W uuidW 0 stW "PUT" urlW dataW none
    _ resp301 rfl rfl rfl
  exact ⟨hb, h.1, h.2.2⟩

/-! ### C4: the correlation identifier in the header is not the one in the
error messages -/

/-- C4 — the code draws `req_id` and then a second, distinct uuid for the
`RequestId` header (`api.py` lines 241–243).  On a concrete failing GET,
the sent request carries header `RequestId = u1` while the raised error's
message carries `Request ID: u0`; the identifiers are distinct (and the
ones of a retried attempt, `u2`/`u3`, are fresh again), so the claim that
the same identifier is threaded through both the header and the error
messages fails on the code. -/
theorem c4_correlation_id_mismatch :
    ((tryHttpRequest (sendW 0) uuidW 0 stW "GET" urlW none none).sent.map
      (fun q => getKey? q.headers "RequestId")) = some (some "u1") ∧
    (∃ d, (tryHttpRequest (sendW 0) uuidW 0 stW "GET" urlW none none).result =
        Except.error (DispatchError.brain (BrainError.fromDict d)) ∧
      getKey? d "errorMessage" = some (Value.jstr (errorMessageOf errRespW "u0")) ∧
      strContains (errorMessageOf errRespW "u0") "Request ID: u0" = true ∧
      strContains (errorMessageOf errRespW "u0") "u1" = false) ∧
    "u0" ≠ "u1" ∧ uuidW 2 ≠ uuidW 0 ∧ uuidW 3 ≠ uuidW 1 := by
  refine ⟨rfl, ⟨_, rfl, rfl, by decide, by decide⟩, by decide, by decide, by decide⟩

/-! ### C5: non-JSON and non-object bodies on success -/

/-- C5 — For every successful response: a non-empty body that fails JSON
parsing is swallowed, and the result is exactly the status fields (no
`value` key, `status` still `Succeeded`); a valid JSON array-or-scalar
body is wrapped under `value` ahead of the status fields. -/
theorem c5_nonjson_and_nonobject_bodies (r : Response) (rid : String)
    (hok : respOk r = true) (htrim : pyStrip r.text ≠ "") :
    (r.json = none →
      dictFn r rid = statusFields r ∧
      getKey? (dictFn r rid) "value" = none ∧
      getKey? (dictFn r rid) "status" = some (Value.jstr "Succeeded"))
    ∧ (∀ v, r.json = some v → isObjV v = false →
      dictFn r rid = ("value", v) :: statusFields r ∧
      getKey? (dictFn r rid) "status" = some (Value.jstr "Succeeded")) := by
  constructor
  · intro hj
    have he : dictFn r rid = statusFields r := by
      rw [dictFn_eq_overlay r rid hok htrim, hj]
      rfl
    refine ⟨he, ?_, ?_⟩
    · rw [he]
      unfold statusFields
      rw [statusOverlay_other r [] (by decide) (by decide) (by decide) (by decide)
        (by decide)]
      rfl
    · rw [he]
      unfold statusFields
      rw [statusOverlay_status, hok]
      rfl
  · intro v hj hobj
    have he : dictFn r rid = statusOverlay r [("value", v)] := by
      rw [dictFn_eq_overlay r rid hok htrim, hj]
      cases v <;> simp_all [isObjV]
    constructor
    · rw [he]
      unfold statusFields statusOverlay
      dsimp only
      cases hh : headerGet r.headers "x-ms-response-time" with
      | some t =>
        dsimp only
        rw [setKey_cons_ne "value" v _ "status" _ (by decide),
          setKey_cons_ne "value" v _ "statusCode" _ (by decide),
          setKey_cons_ne "value" v _ "statusMessage" _ (by decide),
          setKey_cons_ne "value" v _ "elapsed" _ (by decide),
          setKey_cons_ne "value" v _ "timeTaken" _ (by decide)]
      | none =>
        dsimp only
        rw [setKey_cons_ne "value" v _ "status" _ (by decide),
          setKey_cons_ne "value" v _ "statusCode" _ (by decide),
          setKey_cons_ne "value" v _ "statusMessage" _ (by decide),
          setKey_cons_ne "value" v _ "elapsed" _ (by decide)]
    · rw [he, statusOverlay_status, hok]
      rfl

/-- Witness for C5: a concrete non-JSON 200 body yields exactly the status
fields with no `value` key; a concrete JSON array body is wrapped under
`value`. -/
theorem c5_nonjson_and_nonobject_bodies_witness :
    (dictFn respTextW "rid" = statusFields respTextW ∧
     getKey? (dictFn respTextW "rid") "value" = none ∧
     getKey? (dictFn respTextW "rid") "status" = some (Value.jstr "Succeeded")) ∧
    (dictFn respArrW "rid" = ("value", Value.jarr [Value.jnum 1]) ::
        statusFields respArrW ∧
     getKey? (dictFn respArrW "rid") "status" = some (Value.jstr "Succeeded")) :=
  ⟨(c5_nonjson_and_nonobject_bodies respTextW "rid" (by decide) (by decide)).1 rfl,
   (c5_nonjson_and_nonobject_bodies respArrW "rid" (by decide) (by decide)).2
     (Value.jarr [Value.jnum 1]) rfl rfl⟩

/-! ### C6: failure-isolated extraction of error fields -/

/-- C6 — Every field of the structured error is captured independently at
its documented value, for every response: the dump falls back to the
unknown-error marker, `error.code` / `error.message` fall back to their
defaults, the message carries the request id and the `SpanID` header only
when present, `status`/`statusCode`/`elapsed`/`exception` are always
populated, and `timeTaken` is present exactly when the timing header is —
no single missing or malformed source disturbs any other field. -/
theorem c6_error_fields_independent (r : Response) (e rid : String) :
    getKey? (handleAndRaise r e rid) "errorDump" = some (errorDumpOf r) ∧
    getKey? (handleAndRaise r e rid) "status" = some (Value.jstr "Failed") ∧
    getKey? (handleAndRaise r e rid) "statusCode" = some (Value.jnum r.status_code) ∧
    getKey? (handleAndRaise r e rid) "elapsed" = some (Value.duration r.elapsed) ∧
    getKey? (handleAndRaise r e rid) "exception" = some (Value.exc e) ∧
    getKey? (handleAndRaise r e rid) "errorCode" = some (Value.jstr (errorCodeOf r)) ∧
    getKey? (handleAndRaise r e rid) "errorMessage" =
      some (Value.jstr (errorMessageOf r rid)) ∧
    getKey? (handleAndRaise r e rid) "timeTaken" =
      (headerGet r.headers "x-ms-response-time").map (fun t => Value.jstr t) := by
  unfold handleAndRaise
  dsimp only
  cases hh : headerGet r.headers "x-ms-response-time" <;>
    exact ⟨rfl, rfl, rfl, rfl, rfl, rfl, rfl, rfl⟩

/-! ### C7: credential redaction in the logged header dump -/

/-- C7 — For every attempt, the logged header dump holds the redacted
`Authorization` value `maskAuth` of the client credential; and the
redacted value is a function of only the credential's last 10 characters,
so the log never reveals any other character of the credential. -/
theorem c7_auth_redaction :
    (∀ (send : Request → TransportOutcome) (uuid : Nat → String) (ctr : Nat)
      (st : ClientState) (m u : String) (d : Option (List (String × Value)))
      (ex : Option (List (String × String))),
      getKey? ((tryHttpRequest send uuid ctr st m u d ex).logged) "Authorization" =
        some (maskAuth st.access_key)) ∧
    (∀ t1 t2 : String,
      t1.data.drop (t1.data.length - 10) = t2.data.drop (t2.data.length - 10) →
      maskAuth t1 = maskAuth t2) := by
  constructor
  · intro send uuid ctr st m u d ex
    rw [tryHttpRequest_logged]
    exact getKey?_scrub_auth st (uuid (ctr + 1))
  · exact maskAuth_lastTen

/-- Witness for C7: the concrete run logs the masked credential, and two
credentials sharing their last 10 characters mask identically. -/
theorem c7_auth_redaction_witness :
    getKey? ((tryHttpRequest (sendW 0) uuidW 0 stW "GET" urlW none none).logged)
      "Authorization" = some (maskAuth stW.access_key) ∧
    maskAuth "AAAA0123456789" = maskAuth "BBBB0123456789" :=
  ⟨c7_auth_redaction.1 (sendW 0) uuidW 0 stW "GET" urlW none none,
   c7_auth_redaction.2 "AAAA0123456789" "BBBB0123456789" (by decide)⟩

theorem parseStrBody_sound : ∀ (n : Nat) (ys : List Char), ys.length ≤ n →
    ∀ v rest, parseStrBody ys = some (v, rest) →
    ∃ cons, ys = cons ++ '"' :: rest ∧ UnescRel cons v := by
  intro n
  induction n with
  | zero =>
    intro ys hlen v rest h
    have : ys = [] := List.length_eq_zero.mp (Nat.le_zero.mp hlen)
    subst this
    simp [parseStrBody] at h
  | succ n ih =>
    intro ys hlen v rest h
    match ys with
    | [] => simp [parseStrBody] at h
    | c :: cs =>
      rw [parseStrBody.eq_def] at h
      dsimp only at h
      by_cases hc1 : c = '"'
      · rw [if_pos hc1] at h
        obtain ⟨hv, hrest⟩ : ([] : List Char) = v ∧ cs = rest := by
          constructor <;> injection h with h' <;> injection h'
        subst hc1
        refine ⟨[], by rw [← hrest]; simp, hv ▸ UnescRel.nil⟩
      · rw [if_neg hc1] at h
        by_cases hc2 : c = '\\'
        · rw [if_pos hc2] at h
          match cs with
          | [] => simp at h
          | e :: cs2 =>
            dsimp only at h
            by_cases he : e = 'u'
            · rw [if_pos he] at h
              match cs2 with
              | [] => simp at h
              | [x1] => simp at h
              | [x1, x2] => simp at h
              | [x1, x2, x3] => simp at h
              | x1 :: x2 :: x3 :: x4 :: cs3 =>
                dsimp only at h
                by_cases hhex : (isHexDigit x1 && isHexDigit x2 && isHexDigit x3 &&
                    isHexDigit x4) = true
                · rw [if_pos hhex] at h
                  rcases hps : parseStrBody cs3 with _ | ⟨v0, rest0⟩ <;>
                    rw [hps] at h
                  · simp at h
                  · have hlen3 : cs3.length ≤ n := by
                      simp only [List.length_cons] at hlen
                      omega
                    obtain ⟨cons0, hys0, hrel0⟩ := ih cs3 hlen3 v0 rest0 hps
                    obtain ⟨hv, hrest⟩ :
                        Char.ofNat (((hexVal x1 * 16 + hexVal x2) * 16 + hexVal x3)
                          * 16 + hexVal x4) :: v0 = v ∧ rest0 = rest := by
                      constructor <;> injection h with h' <;> injection h'
                    refine ⟨'\\' :: 'u' :: x1 :: x2 :: x3 :: x4 :: cons0, ?_, ?_⟩
                    · subst hc2 he hrest
                      simp [hys0]
                    · exact hv ▸ UnescRel.uesc hhex hrel0
                · rw [if_neg hhex] at h
                  simp at h
            · rw [if_neg he] at h
              rcases hec : escChar e with _ | r2 <;> rw [hec] at h
              · simp at h
              · rcases hps : parseStrBody cs2 with _ | ⟨v0, rest0⟩ <;>
                  rw [hps] at h
                · simp at h
                · have hlen2 : cs2.length ≤ n := by
                    simp only [List.length_cons] at hlen
                    omega
                  obtain ⟨cons0, hys0, hrel0⟩ := ih cs2 hlen2 v0 rest0 hps
                  obtain ⟨hv, hrest⟩ : r2 :: v0 = v ∧ rest0 = rest := by
                    constructor <;> injection h with h' <;> injection h'
                  refine ⟨'\\' :: e :: cons0, ?_, ?_⟩
                  · subst hc2 hrest
                    simp [hys0]
                  · exact hv ▸ UnescRel.esc he hec hrel0
        · rw [if_neg hc2] at h
          by_cases hc3 : c.toNat < 32
          · rw [if_pos hc3] at h
            simp at h
          · rw [if_neg hc3] at h
            rcases hps : parseStrBody cs with _ | ⟨v0, rest0⟩ <;> rw [hps] at h
            · simp at h
            · have hlenc : cs.length ≤ n := by
                simp only [List.length_cons] at hlen
                omega
              obtain ⟨cons0, hys0, hrel0⟩ := ih cs hlenc v0 rest0 hps
              obtain ⟨hv, hrest⟩ : c :: v0 = v ∧ rest0 = rest := by
                constructor <;> injection h with h' <;> injection h'
              refine ⟨c :: cons0, ?_, ?_⟩
              · subst hrest
                simp [hys0]
              · exact hv ▸ UnescRel.chr hc1 hc2 hc3 hrel0

theorem hexDigit_ne_quote {c : Char} (h : isHexDigit c = true) : c ≠ '"' := by
  intro he
  subst he
  exact absurd h (by decide)

theorem unescRel_length_le {cs vs : List Char} (h : UnescRel cs vs) :
    vs.length ≤ cs.length := by
  induction h with
  | nil => exact Nat.le_refl 0
  | chr _ _ _ _ ih => simpa using Nat.succ_le_succ ih
  | esc _ _ _ ih =>
    simp only [List.length_cons]
    omega
  | uesc _ _ ih =>
    simp only [List.length_cons]
    omega

theorem unescRel_quote_count {cs vs : List Char} (h : UnescRel cs vs) :
    countQuote cs ≤ countQuote vs := by
  induction h with
  | nil => exact Nat.le_refl 0
  | chr hq hb hctl hrel ih =>
    unfold countQuote at ih ⊢
    simp only [List.countP_cons, decide_eq_true_eq]
    rw [if_neg (by simpa using hq)]
    omega
  | esc he hec hrel ih =>
    rename_i e r csx vsx
    unfold countQuote at ih ⊢
    simp only [List.countP_cons, decide_eq_true_eq]
    rw [if_neg (by decide : ¬(('\\' : Char) = '"'))]
    by_cases hq : e = '"'
    · subst hq
      have hr : r = '"' := by
        have h0 : escChar '"' = some '"' := rfl
        rw [h0] at hec
        injection hec with hh
        exact hh.symm
      subst hr
      simp only [if_pos rfl]
      omega
    · rw [if_neg (by simpa using hq)]
      split <;> omega
  | uesc hhex hrel ih =>
    rename_i x1 x2 x3 x4 csx vsx
    have ha1 : isHexDigit x1 = true := by
      simp only [Bool.and_eq_true] at hhex
      exact hhex.1.1.1
    have ha2 : isHexDigit x2 = true := by
      simp only [Bool.and_eq_true] at hhex
      exact hhex.1.1.2
    have ha3 : isHexDigit x3 = true := by
      simp only [Bool.and_eq_true] at hhex
      exact hhex.1.2
    have ha4 : isHexDigit x4 = true := by
      simp only [Bool.and_eq_true] at hhex
      exact hhex.2
    unfold countQuote at ih ⊢
    simp only [List.countP_cons, decide_eq_true_eq]
    rw [if_neg (by decide : ¬(('\\' : Char) = '"')),
      if_neg (by decide : ¬(('u' : Char) = '"')),
      if_neg (hexDigit_ne_quote ha1),
      if_neg (hexDigit_ne_quote ha2),
      if_neg (hexDigit_ne_quote ha3),
      if_neg (hexDigit_ne_quote ha4)]
    split <;> omega

theorem unescRel_clean_of_length {cs vs : List Char} (h : UnescRel cs vs)
    (hlen : vs.length = cs.length) : '"' ∉ cs ∧ '\\' ∉ cs := by
  induction h with
  | nil => simp
  | chr hq hb _ _ ih =>
    simp only [List.length_cons, Nat.succ.injEq] at hlen
    have := ih hlen
    simp only [List.mem_cons]
    constructor
    · intro hmem
      rcases hmem with hmem | hmem
      · exact hq hmem.symm
      · exact this.1 hmem
    · intro hmem
      rcases hmem with hmem | hmem
      · exact hb hmem.symm
      · exact this.2 hmem
  | esc _ _ hrel ih =>
    exfalso
    have := unescRel_length_le hrel
    simp only [List.length_cons] at hlen
    omega
  | uesc _ hrel ih =>
    exfalso
    have := unescRel_length_le hrel
    simp only [List.length_cons] at hlen
    omega

theorem parseStrBody_clean : ∀ (X : List Char), '"' ∉ X → '\\' ∉ X →
    (∀ c ∈ X, ¬ c.toNat < 32) → ∀ rest,
    parseStrBody (X ++ '"' :: rest) = some (X, rest) := by
  intro X
  induction X with
  | nil =>
    intro _ _ _ rest
    rw [List.nil_append, parseStrBody.eq_def]
    dsimp only
    rw [if_pos rfl]
  | cons c X' ih =>
    intro hq hb hctl rest
    have hq' : c ≠ '"' := fun h => hq (by simp [h])
    have hb' : c ≠ '\\' := fun h => hb (by simp [h])
    have hc' : ¬ c.toNat < 32 := hctl c (by simp)
    rw [List.cons_append, parseStrBody.eq_def]
    dsimp only
    rw [if_neg hq', if_neg hb', if_neg hc',
      ih (fun h => hq (by simp [h])) (fun h => hb (by simp [h]))
        (fun d hd => hctl d (by simp [hd])) rest]

theorem str_main {X rest rest2 : List Char}
    (h : parseStrBody (X ++ '"' :: rest) = some (X, rest2)) :
    ('"' ∉ X ∧ '\\' ∉ X) ∧ rest2 = rest := by
  obtain ⟨cons, hys, hrel⟩ :=
    parseStrBody_sound (X ++ '"' :: rest).length _ (Nat.le_refl _) _ _ h
  have hlenle : X.length ≤ cons.length := by
    have := unescRel_length_le hrel
    exact this
  rcases Nat.lt_or_ge X.length cons.length with hlt | hge
  · -- the consumed part extends past X: the appended quote is inside an
    -- escape, so the consumed part holds strictly more quotes than the value
    exfalso
    have hpre1 : X <+: (X ++ '"' :: rest) := ⟨'"' :: rest, rfl⟩
    have hpre2 : cons <+: (X ++ '"' :: rest) := ⟨'"' :: rest2, hys.symm⟩
    have hpre : X <+: cons :=
      List.prefix_of_prefix_length_le hpre1 hpre2 (Nat.le_of_lt hlt)
    obtain ⟨u, hu⟩ := hpre
    subst hu
    have hune : u ≠ [] := by
      intro h0
      subst h0
      simp at hlt
    rw [List.append_assoc] at hys
    have htail : '"' :: rest = u ++ '"' :: rest2 := by
      exact List.append_cancel_left hys
    match u, hune with
    | q :: u', _ =>
      have hqq : q = '"' := by
        have := congrArg (fun l => l.head?) htail
        simpa using this.symm
      subst hqq
      have hcount := unescRel_quote_count hrel
      unfold countQuote at hcount
      rw [List.countP_append, List.countP_cons] at hcount
      simp at hcount
  · have hlen : cons.length = X.length := Nat.le_antisymm hge hlenle
    obtain ⟨hXc, htail⟩ := List.append_inj hys hlen.symm
    have hrest : rest2 = rest := by
      injection htail with _ h2
      exact h2.symm
    subst hXc
    exact ⟨unescRel_clean_of_length hrel rfl, hrest⟩

-- step lemmas for symbolic execution of the purpose-string parse

theorem stepValueObj (f : Nat) (t : List Char) :
    parseValue (f + 1) ('{' :: t) = parseObjBody f t := by
  unfold parseValue skipWs isWsChar
  rfl

theorem stepValueObjSp (f : Nat) (t : List Char) :
    parseValue (f + 1) (' ' :: '{' :: t) = parseObjBody f t := by
  unfold parseValue skipWs isWsChar
  rfl

theorem stepObjBody (f : Nat) (t : List Char) :
    parseObjBody (f + 1) ('"' :: t) =
      (parseMembers f ('"' :: t)).map (fun mr => (Value.jobj mr.1, mr.2)) := by
  unfold parseObjBody skipWs isWsChar
  rfl

theorem stepValueStr (f : Nat) (t : List Char) :
    parseValue (f + 1) (' ' :: '"' :: t) =
      (parseStrBody t).map (fun vr => (Value.jstr (String.mk vr.1), vr.2)) := by
  unfold parseValue skipWs isWsChar
  rfl

theorem stepMemAction (f : Nat) (t : List Char) :
    parseMembers (f + 1)
      ('"' :: 'a' :: 'c' :: 't' :: 'i' :: 'o' :: 'n' :: '"' :: ':' :: ' ' :: '"' :: t) =
      (parseValue f (' ' :: '"' :: t)).bind (fun vr =>
        memberTail f "action" vr.1 vr.2) := by
  have hkey : parseStrBody (['a', 'c', 't', 'i', 'o', 'n'] ++ '"' :: (':' :: ' ' :: '"' :: t)) =
      some (['a', 'c', 't', 'i', 'o', 'n'], ':' :: ' ' :: '"' :: t) :=
    parseStrBody_clean ['a', 'c', 't', 'i', 'o', 'n'] (by decide) (by decide) (by decide) _
  simp only [List.cons_append, List.nil_append] at hkey
  have hstr : String.mk ['a', 'c', 't', 'i', 'o', 'n'] = "action" := rfl
  simp [parseMembers, expectChar, skipWs, isWsChar, hkey, hstr]

theorem stepMemTarget (f : Nat) (t : List Char) :
    parseMembers (f + 1)
      (' ' :: '"' :: 't' :: 'a' :: 'r' :: 'g' :: 'e' :: 't' :: '"' :: ':' :: ' ' :: '{' :: t) =
      (parseValue f (' ' :: '{' :: t)).bind (fun vr =>
        memberTail f "target" vr.1 vr.2) := by
  have hkey : parseStrBody (['t', 'a', 'r', 'g', 'e', 't'] ++ '"' :: (':' :: ' ' :: '{' :: t)) =
      some (['t', 'a', 'r', 'g', 'e', 't'], ':' :: ' ' :: '{' :: t) :=
    parseStrBody_clean ['t', 'a', 'r', 'g', 'e', 't'] (by decide) (by decide) (by decide) _
  simp only [List.cons_append, List.nil_append] at hkey
  have hstr : String.mk ['t', 'a', 'r', 'g', 'e', 't'] = "target" := rfl
  simp [parseMembers, expectChar, skipWs, isWsChar, hkey, hstr]

theorem stepMemWsName (f : Nat) (t : List Char) :
    parseMembers (f + 1)
      ('"' :: 'w' :: 'o' :: 'r' :: 'k' :: 's' :: 'p' :: 'a' :: 'c' :: 'e' ::
       'N' :: 'a' :: 'm' :: 'e' :: '"' :: ':' :: ' ' :: '"' :: t) =
      (parseValue f (' ' :: '"' :: t)).bind (fun vr =>
        memberTail f "workspaceName" vr.1 vr.2) := by
  have hkey : parseStrBody (['w', 'o', 'r', 'k', 's', 'p', 'a', 'c', 'e', 'N', 'a', 'm', 'e'] ++ '"' :: (':' :: ' ' :: '"' :: t)) =
      some (['w', 'o', 'r', 'k', 's', 'p', 'a', 'c', 'e', 'N', 'a', 'm', 'e'], ':' :: ' ' :: '"' :: t) :=
    parseStrBody_clean ['w', 'o', 'r', 'k', 's', 'p', 'a', 'c', 'e', 'N', 'a', 'm', 'e'] (by decide) (by decide) (by decide) _
  simp only [List.cons_append, List.nil_append] at hkey
  have hstr : String.mk ['w', 'o', 'r', 'k', 's', 'p', 'a', 'c', 'e', 'N', 'a', 'm', 'e'] = "workspaceName" := rfl
  simp [parseMembers, expectChar, skipWs, isWsChar, hkey, hstr]

theorem stepMemBrainName (f : Nat) (t : List Char) :
    parseMembers (f + 1)
      (' ' :: '"' :: 'b' :: 'r' :: 'a' :: 'i' :: 'n' :: 'N' :: 'a' :: 'm' :: 'e' ::
       '"' :: ':' :: ' ' :: '"' :: t) =
      (parseValue f (' ' :: '"' :: t)).bind (fun vr =>
        memberTail f "brainName" vr.1 vr.2) := by
  have hkey : parseStrBody (['b', 'r', 'a', 'i', 'n', 'N', 'a', 'm', 'e'] ++ '"' :: (':' :: ' ' :: '"' :: t)) =
      some (['b', 'r', 'a', 'i', 'n', 'N', 'a', 'm', 'e'], ':' :: ' ' :: '"' :: t) :=
    parseStrBody_clean ['b', 'r', 'a', 'i', 'n', 'N', 'a', 'm', 'e'] (by decide) (by decide) (by decide) _
  simp only [List.cons_append, List.nil_append] at hkey
  have hstr : String.mk ['b', 'r', 'a', 'i', 'n', 'N', 'a', 'm', 'e'] = "brainName" := rfl
  simp [parseMembers, expectChar, skipWs, isWsChar, hkey, hstr]

theorem stepMemBrainVersion (f : Nat) (t : List Char) :
    parseMembers (f + 1)
      (' ' :: '"' :: 'b' :: 'r' :: 'a' :: 'i' :: 'n' :: 'V' :: 'e' :: 'r' :: 's' ::
       'i' :: 'o' :: 'n' :: '"' :: ':' :: ' ' :: '"' :: t) =
      (parseValue f (' ' :: '"' :: t)).bind (fun vr =>
        memberTail f "brainVersion" vr.1 vr.2) := by
  have hkey : parseStrBody (['b', 'r', 'a', 'i', 'n', 'V', 'e', 'r', 's', 'i', 'o', 'n'] ++ '"' :: (':' :: ' ' :: '"' :: t)) =
      some (['b', 'r', 'a', 'i', 'n', 'V', 'e', 'r', 's', 'i', 'o', 'n'], ':' :: ' ' :: '"' :: t) :=
    parseStrBody_clean ['b', 'r', 'a', 'i', 'n', 'V', 'e', 'r', 's', 'i', 'o', 'n'] (by decide) (by decide) (by decide) _
  simp only [List.cons_append, List.nil_append] at hkey
  have hstr : String.mk ['b', 'r', 'a', 'i', 'n', 'V', 'e', 'r', 's', 'i', 'o', 'n'] = "brainVersion" := rfl
  simp [parseMembers, expectChar, skipWs, isWsChar, hkey, hstr]

theorem stepMemConceptName (f : Nat) (t : List Char) :
    parseMembers (f + 1)
      (' ' :: '"' :: 'c' :: 'o' :: 'n' :: 'c' :: 'e' :: 'p' :: 't' :: 'N' :: 'a' ::
       'm' :: 'e' :: '"' :: ':' :: ' ' :: '"' :: t) =
      (parseValue f (' ' :: '"' :: t)).bind (fun vr =>
        memberTail f "conceptName" vr.1 vr.2) := by
  have hkey : parseStrBody (['c', 'o', 'n', 'c', 'e', 'p', 't', 'N', 'a', 'm', 'e'] ++ '"' :: (':' :: ' ' :: '"' :: t)) =
      some (['c', 'o', 'n', 'c', 'e', 'p', 't', 'N', 'a', 'm', 'e'], ':' :: ' ' :: '"' :: t) :=
    parseStrBody_clean ['c', 'o', 'n', 'c', 'e', 'p', 't', 'N', 'a', 'm', 'e'] (by decide) (by decide) (by decide) _
  simp only [List.cons_append, List.nil_append] at hkey
  have hstr : String.mk ['c', 'o', 'n', 'c', 'e', 'p', 't', 'N', 'a', 'm', 'e'] = "conceptName" := rfl
  simp [parseMembers, expectChar, skipWs, isWsChar, hkey, hstr]




theorem parseValue_zero (t : List Char) : parseValue 0 t = none := rfl

theorem parseObjBody_zero (t : List Char) : parseObjBody 0 t = none := rfl

theorem parseMembers_zero (t : List Char) : parseMembers 0 t = none := rfl

theorem memberTail_zero (k : String) (v : Value) (t : List Char) :
    memberTail 0 k v t = none := rfl

theorem memberTail_inv {f : Nat} {k : String} {v : Value} {r : List Char}
    {ms : List (String × Value)} {rest : List Char}
    (h : memberTail (f + 1) k v r = some (ms, rest)) :
    (∃ rest4 ms2 rest5, skipWs r = ',' :: rest4 ∧
        parseMembers f rest4 = some (ms2, rest5) ∧ ms = (k, v) :: ms2 ∧ rest = rest5) ∨
    (∃ rest4, skipWs r = '}' :: rest4 ∧ ms = [(k, v)] ∧ rest = rest4) := by
  rw [memberTail.eq_def] at h
  dsimp only at h
  split at h
  · rename_i rest4 heq
    rcases Option.map_eq_some'.mp h with ⟨⟨ms2, rest5⟩, hp, hmk⟩
    dsimp only at hmk
    injection hmk with h1 h2
    exact Or.inl ⟨rest4, ms2, rest5, heq, hp, h1.symm, h2.symm⟩
  · rename_i rest4 heq
    injection h with h1
    injection h1 with h2 h3
    exact Or.inr ⟨rest4, heq, h2.symm, h3.symm⟩
  · exact absurd h (by simp)

theorem memberTail_ne_nil {f : Nat} {k : String} {v : Value} {r : List Char}
    {ms : List (String × Value)} {rest : List Char}
    (h : memberTail f k v r = some (ms, rest)) : ms ≠ [] := by
  cases f with
  | zero => rw [memberTail_zero] at h; exact absurd h (by simp)
  | succ f =>
    rcases memberTail_inv h with ⟨_, _, _, _, _, hms, _⟩ | ⟨_, _, hms, _⟩ <;>
      rw [hms] <;> simp

theorem parseMembers_ne_nil {f : Nat} {xs : List Char}
    {ms : List (String × Value)} {rest : List Char}
    (h : parseMembers f xs = some (ms, rest)) : ms ≠ [] := by
  cases f with
  | zero => rw [parseMembers_zero] at h; exact absurd h (by simp)
  | succ f =>
    rw [parseMembers.eq_def] at h
    dsimp only at h
    rcases Option.bind_eq_some.mp h with ⟨cs, _, h2⟩
    rcases Option.bind_eq_some.mp h2 with ⟨kr, _, h3⟩
    rcases Option.bind_eq_some.mp h3 with ⟨rest2, _, h4⟩
    rcases Option.bind_eq_some.mp h4 with ⟨vr, _, h5⟩
    exact memberTail_ne_nil h5

theorem strMember_inv {f : Nat} {k : String} {X : String} {R : List Char}
    {ms : List (String × Value)} {rest : List Char}
    (h : (parseValue f (' ' :: '"' :: (X.data ++ '"' :: R))).bind
        (fun vr => memberTail f k vr.1 vr.2) = some (ms, rest)) :
    ∃ g sv sr, f = g + 1 ∧ parseStrBody (X.data ++ '"' :: R) = some (sv, sr) ∧
      ((∃ r4 ms2 r5, skipWs sr = ',' :: r4 ∧ parseMembers g r4 = some (ms2, r5) ∧
          ms = (k, Value.jstr (String.mk sv)) :: ms2 ∧ rest = r5) ∨
       (∃ r4, skipWs sr = '}' :: r4 ∧ ms = [(k, Value.jstr (String.mk sv))] ∧
          rest = r4)) := by
  cases f with
  | zero =>
    rw [parseValue_zero] at h
    exact absurd h (by simp)
  | succ g =>
    rw [stepValueStr] at h
    rcases hps : parseStrBody (X.data ++ '"' :: R) with _ | ⟨sv, sr⟩ <;> rw [hps] at h
    · exact absurd h (by simp)
    · simp only [Option.map_some', Option.some_bind] at h
      exact ⟨g, sv, sr, rfl, rfl, memberTail_inv h⟩

theorem purpose_value_clean (n : Nat) (A W B V C : String) (rest : List Char)
    (h : parseValue n (purposeChars A W B V C) =
      some (expectedPurpose A W B V C, rest)) :
    (('"' ∉ A.data ∧ '\\' ∉ A.data) ∧ ('"' ∉ W.data ∧ '\\' ∉ W.data) ∧
     ('"' ∉ B.data ∧ '\\' ∉ B.data) ∧ ('"' ∉ V.data ∧ '\\' ∉ V.data) ∧
     ('"' ∉ C.data ∧ '\\' ∉ C.data)) := by
  cases n with
  | zero => rw [parseValue_zero] at h; exact absurd h (by simp)
  | succ n =>
  simp only [purposeChars, expectedPurpose, tplA, tplB, tplC, tplD, tplE, tplF,
    List.cons_append, List.nil_append, List.append_assoc] at h
  rw [stepValueObj] at h
  cases n with
  | zero => rw [parseObjBody_zero] at h; exact absurd h (by simp)
  | succ n =>
  rw [stepObjBody] at h
  rcases Option.map_eq_some'.mp h with ⟨⟨ms, r2⟩, hm, hmk⟩
  dsimp only at hmk
  injection hmk with hv hr
  injection hv with hms
  rw [hms] at hm
  cases n with
  | zero => rw [parseMembers_zero] at hm; exact absurd hm (by simp)
  | succ n =>
  rw [stepMemAction] at hm
  obtain ⟨g1, sv1, sr1, hg1, hps1, hbr1⟩ := strMember_inv hm
  rcases hbr1 with ⟨r4a, ms2a, r5a, hsk1, hpm1, hms1, _⟩ | ⟨r4a, _, hms1, _⟩
  · injection hms1 with hh1 ht1
    injection hh1 with _ hv1
    injection hv1 with hstr1
    have hd1 : A.data = sv1 := by rw [hstr1]
    rw [← hd1] at hps1
    obtain ⟨hclean1, hsr1⟩ := str_main hps1
    rw [hsr1] at hsk1
    injection hsk1 with _ hr4a
    rw [← hr4a, ← ht1] at hpm1
    cases g1 with
    | zero => rw [parseMembers_zero] at hpm1; exact absurd hpm1 (by simp)
    | succ g1 =>
    rw [stepMemTarget] at hpm1
    rcases Option.bind_eq_some.mp hpm1 with ⟨⟨vT, rT⟩, hpvT, hmtT⟩
    cases g1 with
    | zero => rw [parseValue_zero] at hpvT; exact absurd hpvT (by simp)
    | succ g1 =>
    rw [stepValueObjSp] at hpvT
    cases g1 with
    | zero => rw [parseObjBody_zero] at hpvT; exact absurd hpvT (by simp)
    | succ g1 =>
    rw [stepObjBody] at hpvT
    rcases Option.map_eq_some'.mp hpvT with ⟨⟨msI, rI⟩, hmI, hmkI⟩
    dsimp only at hmkI
    injection hmkI with hvT hrT
    subst hvT
    subst hrT
    rcases memberTail_inv hmtT with ⟨r4T, ms2T, r5T, _, hpmT, hmsT, _⟩ | ⟨r4T, _, hmsT, _⟩
    · injection hmsT with _ htT
      exact absurd htT.symm (parseMembers_ne_nil hpmT)
    · injection hmsT with hhT _
      injection hhT with _ hvI
      injection hvI with hLI
      rw [← hLI] at hmI
      cases g1 with
      | zero => rw [parseMembers_zero] at hmI; exact absurd hmI (by simp)
      | succ g1 =>
      rw [stepMemWsName] at hmI
      obtain ⟨g2, sv2, sr2, _, hps2, hbr2⟩ := strMember_inv hmI
      rcases hbr2 with ⟨r4b, ms2b, r5b, hsk2, hpm2, hms2, _⟩ | ⟨r4b, _, hms2, _⟩
      · injection hms2 with hh2 ht2
        injection hh2 with _ hv2
        injection hv2 with hstr2
        have hd2 : W.data = sv2 := by rw [hstr2]
        rw [← hd2] at hps2
        obtain ⟨hclean2, hsr2⟩ := str_main hps2
        rw [hsr2] at hsk2
        injection hsk2 with _ hr4b
        rw [← hr4b, ← ht2] at hpm2
        cases g2 with
        | zero => rw [parseMembers_zero] at hpm2; exact absurd hpm2 (by simp)
        | succ g2 =>
        rw [stepMemBrainName] at hpm2
        obtain ⟨g3, sv3, sr3, _, hps3, hbr3⟩ := strMember_inv hpm2
        rcases hbr3 with ⟨r4c, ms2c, r5c, hsk3, hpm3, hms3, _⟩ | ⟨r4c, _, hms3, _⟩
        · injection hms3 with hh3 ht3
          injection hh3 with _ hv3
          injection hv3 with hstr3
          have hd3 : B.data = sv3 := by rw [hstr3]
          rw [← hd3] at hps3
          obtain ⟨hclean3, hsr3⟩ := str_main hps3
          rw [hsr3] at hsk3
          injection hsk3 with _ hr4c
          rw [← hr4c, ← ht3] at hpm3
          cases g3 with
          | zero => rw [parseMembers_zero] at hpm3; exact absurd hpm3 (by simp)
          | succ g3 =>
          rw [stepMemBrainVersion] at hpm3
          obtain ⟨g4, sv4, sr4, _, hps4, hbr4⟩ := strMember_inv hpm3
          rcases hbr4 with ⟨r4d, ms2d, r5d, hsk4, hpm4, hms4, _⟩ | ⟨r4d, _, hms4, _⟩
          · injection hms4 with hh4 ht4
            injection hh4 with _ hv4
            injection hv4 with hstr4
            have hd4 : V.data = sv4 := by rw [hstr4]
            rw [← hd4] at hps4
            obtain ⟨hclean4, hsr4⟩ := str_main hps4
            rw [hsr4] at hsk4
            injection hsk4 with _ hr4d
            rw [← hr4d, ← ht4] at hpm4
            cases g4 with
            | zero => rw [parseMembers_zero] at hpm4; exact absurd hpm4 (by simp)
            | succ g4 =>
            rw [stepMemConceptName] at hpm4
            obtain ⟨g5, sv5, sr5, _, hps5, hbr5⟩ := strMember_inv hpm4
            rcases hbr5 with ⟨r4e, ms2e, r5e, _, hpm5, hms5, _⟩ | ⟨r4e, _, hms5, _⟩
            · injection hms5 with _ ht5
              exact absurd ht5.symm (parseMembers_ne_nil hpm5)
            · injection hms5 with hh5 _
              injection hh5 with _ hv5
              injection hv5 with hstr5
              have hd5 : C.data = sv5 := by rw [hstr5]
              rw [← hd5] at hps5
              obtain ⟨hclean5, _⟩ := str_main hps5
              exact ⟨hclean1, hclean2, hclean3, hclean4, hclean5⟩
          · exact absurd hms4 (by simp)
        · exact absurd hms3 (by simp)
      · exact absurd hms2 (by simp)
  · exact absurd hms1 (by simp)

theorem purpose_parse_clean (A W B V C : String)
    (h : jsonParse (purposeChars A W B V C) = some (expectedPurpose A W B V C)) :
    (('"' ∉ A.data ∧ '\\' ∉ A.data) ∧ ('"' ∉ W.data ∧ '\\' ∉ W.data) ∧
     ('"' ∉ B.data ∧ '\\' ∉ B.data) ∧ ('"' ∉ V.data ∧ '\\' ∉ V.data) ∧
     ('"' ∉ C.data ∧ '\\' ∉ C.data)) := by
  unfold jsonParse at h
  rcases hpv : parseValue (3 * (purposeChars A W B V C).length + 3)
      (purposeChars A W B V C) with _ | ⟨v, rest⟩ <;> rw [hpv] at h
  · exact absurd h (by simp)
  · dsimp only at h
    rcases hsw : skipWs rest with _ | ⟨c, cr⟩ <;> rw [hsw] at h
    · dsimp only at h
      injection h with hveq
      rw [hveq] at hpv
      exact purpose_value_clean _ A W B V C rest hpv
    · exact absurd h (by simp)

/-- C9: `create_sim_collection` and `patch_sim_session` build the `purpose`
sub-object by interpolating the action, workspace id, brain name, brain
version and concept name into a JSON string literal and re-parsing it with
`json.loads`; whenever any of the five interpolated values contains a
double-quote or a backslash, the parse cannot return the intended purpose
object: it either raises a JSON decode error or yields a structurally
different value, before any HTTP request is issued. -/
theorem c9_purpose_injection (A W B V C : String)
    (hb : (hasBad A || hasBad W || hasBad B || hasBad V || hasBad C) = true) :
    jsonParse (purposeChars A W B V C) ≠ some (expectedPurpose A W B V C) := by
  intro h
  obtain ⟨⟨hA1, hA2⟩, ⟨hW1, hW2⟩, ⟨hB1, hB2⟩, ⟨hV1, hV2⟩, ⟨hC1, hC2⟩⟩ :=
    purpose_parse_clean A W B V C h
  simp only [hasBad, List.any_eq_true, Bool.or_eq_true, decide_eq_true_eq] at hb
  rcases hb with (((⟨c, hc, rfl | rfl⟩ | ⟨c, hc, rfl | rfl⟩) | ⟨c, hc, rfl | rfl⟩) |
    ⟨c, hc, rfl | rfl⟩) | ⟨c, hc, rfl | rfl⟩
  exacts [hA1 hc, hA2 hc, hW1 hc, hW2 hc, hB1 hc, hB2 hc, hV1 hc, hV2 hc,
    hC1 hc, hC2 hc]

/-- Witness for C9 at a concrete input: an action value containing a
double quote makes the re-parsed purpose string diverge from the intended
object. -/
theorem c9_purpose_injection_witness :
    (hasBad "x\"y" || hasBad "demo-ws" || hasBad "brain" || hasBad "1" ||
      hasBad "concept") = true ∧
    jsonParse (purposeChars "x\"y" "demo-ws" "brain" "1" "concept") ≠
      some (expectedPurpose "x\"y" "demo-ws" "brain" "1" "concept") :=
  ⟨by decide, c9_purpose_injection "x\"y" "demo-ws" "brain" "1" "concept" (by decide)⟩

end BonsaiCli
